import Mathlib

/-!
Shallow embedding of the Quickevent intent-extraction/validation core.

The definitions below are translated from the repository's source:
  * `calendar_utils.py` — `parse_datetime` (lines 158-197) and
    `validate_event_data` (lines 199-273);
  * `llm_utils.py` — `query_groq` (lines 17-44) and
    `extract_json_from_text` (lines 46-101).

Python dictionaries are modelled as insertion-ordered association lists,
Python `datetime` values as records of naive components (no computation in
the source ever converts between timezones; `%z` offsets are validated and
then discarded, exactly as `strftime('%Y-%m-%dT%H:%M:%S')` does).
Machine-level caveats of the model, noted where they occur: fractional JSON
numbers are not modelled (`json.loads` on them is treated as a failure), and
`strftime('%Y')` is modelled as zero-padded to four digits (glibc pads with
zeros only for `%Y` via `%4Y`; all years reachable in the claims are
`>= 1000`, where the two agree).
-/

namespace Quickevent

/-- A Python/JSON value as it flows through the pipeline. -/
inductive Val where
  | str (s : String)
  | num (n : Int)
  | bool (b : Bool)
  | null
  | list (items : List Val)
  | dict (fields : List (String × Val))
deriving Repr

/-- A Python dict (its top level), as an insertion-ordered association list. -/
abbrev Obj := List (String × Val)

/-- `d[k]` / `k in d` lookup. -/
def lookupKey (k : String) : Obj → Option Val
  | [] => none
  | (k', v) :: t => if k' = k then some v else lookupKey k t

/-- `d[k] = v`: replace the value at the first occurrence of `k`, keeping its
position (CPython dict update), or append the binding if `k` is absent. -/
def setKey (k : String) (v : Val) : Obj → Obj
  | [] => [(k, v)]
  | (k', v') :: t => if k' = k then (k, v) :: t else (k', v') :: setKey k v t

/-- Two-level lookup `d[k1][k2]` (when `d[k1]` is a dict). -/
def lookup2 (d : Obj) (k1 k2 : String) : Option Val :=
  match lookupKey k1 d with
  | some (Val.dict inner) => lookupKey k2 inner
  | _ => none

/-- Python truthiness of a value (`bool(v)`). -/
def truthy : Val → Bool
  | Val.str s => !s.data.isEmpty
  | Val.num n => n != 0
  | Val.bool b => b
  | Val.null => false
  | Val.list items => !items.isEmpty
  | Val.dict fields => !fields.isEmpty

/-- `isinstance(v, dict)`. -/
def isDict : Val → Bool
  | Val.dict _ => true
  | _ => false

/-- `type(v).__name__`, as it appears in CPython error messages. -/
def pyTypeName : Val → String
  | Val.str _ => "str"
  | Val.num _ => "int"
  | Val.bool _ => "bool"
  | Val.null => "NoneType"
  | Val.list _ => "list"
  | Val.dict _ => "dict"

/-- `str(v)` for the values that can appear inside an f-string here; only the
string case is ever reachable in a warning message. -/
def pyStr : Val → String
  | Val.str s => s
  | Val.num n => toString n
  | Val.bool b => if b then "True" else "False"
  | Val.null => "None"
  | Val.list _ => "[...]"
  | Val.dict _ => "\x7b...\x7d"

/-! ## Naive datetimes (`datetime.datetime` without timezone conversion) -/

/-- Naive components of a `datetime.datetime`.  The source never performs
timezone arithmetic: `%z` offsets are validated, then dropped by
`strftime('%Y-%m-%dT%H:%M:%S')`. -/
structure DT where
  year : Nat
  month : Nat
  day : Nat
  hour : Nat
  minute : Nat
  second : Nat
deriving Repr, DecidableEq

/-- Gregorian leap year. -/
def isLeap (y : Nat) : Bool :=
  (y % 4 = 0 && y % 100 != 0) || y % 400 = 0

/-- Length of a month (`0` for a month index outside `1..12`). -/
def daysInMonth (y m : Nat) : Nat :=
  match m with
  | 1 => 31 | 2 => if isLeap y then 29 else 28 | 3 => 31 | 4 => 30
  | 5 => 31 | 6 => 30 | 7 => 31 | 8 => 31
  | 9 => 30 | 10 => 31 | 11 => 30 | 12 => 31
  | _ => 0

/-- The components form a valid `datetime.date`/`time` (as the constructor
checks them). -/
def validDT (t : DT) : Prop :=
  1 ≤ t.year ∧ t.year ≤ 9999 ∧ 1 ≤ t.month ∧ t.month ≤ 12 ∧
  1 ≤ t.day ∧ t.day ≤ daysInMonth t.year t.month ∧
  t.hour ≤ 23 ∧ t.minute ≤ 59 ∧ t.second ≤ 59

instance (t : DT) : Decidable (validDT t) := by
  unfold validDT; infer_instance

/-- `datetime(...)` construction: `None` models the `ValueError`. -/
def mkDatetime (y mo da h mi s : Nat) : Option DT :=
  if 1 ≤ y ∧ y ≤ 9999 ∧ 1 ≤ mo ∧ mo ≤ 12 ∧ 1 ≤ da ∧ da ≤ daysInMonth y mo ∧
      h ≤ 23 ∧ mi ≤ 59 ∧ s ≤ 59 then
    some ⟨y, mo, da, h, mi, s⟩
  else none

/-- Calendar successor day. -/
def nextDay (t : DT) : DT :=
  if t.day < daysInMonth t.year t.month then { t with day := t.day + 1 }
  else if t.month < 12 then { t with month := t.month + 1, day := 1 }
  else { t with year := t.year + 1, month := 1, day := 1 }

/-- Iterated `nextDay`. -/
def addDays (t : DT) : Nat → DT
  | 0 => t
  | n + 1 => addDays (nextDay t) n

/-- `t + timedelta(hours=k)` on a naive datetime. -/
def addHours (t : DT) (k : Nat) : DT :=
  let h := t.hour + k
  { addDays t (h / 24) with hour := h % 24 }

/-! ## `strftime` output -/

/-- Two-digit zero-padded field (`%m`, `%d`, `%H`, `%M`, `%S`). -/
def pad2C (n : Nat) : List Char :=
  [Nat.digitChar (n / 10), Nat.digitChar (n % 10)]

/-- Four-digit zero-padded year (`%Y`; see the module comment on glibc). -/
def pad4C (n : Nat) : List Char :=
  [Nat.digitChar (n / 1000), Nat.digitChar (n / 100 % 10),
   Nat.digitChar (n / 10 % 10), Nat.digitChar (n % 10)]

/-- `t.strftime('%Y-%m-%dT%H:%M:%S')` as a character list. -/
def fmtChars (t : DT) : List Char :=
  pad4C t.year ++ '-' :: pad2C t.month ++ '-' :: pad2C t.day ++
    'T' :: pad2C t.hour ++ ':' :: pad2C t.minute ++ ':' :: pad2C t.second

/-- `DEFAULT_TIMEZONE` (calendar_utils.py line 38). -/
def DEFAULT_TIMEZONE : String := "Asia/Kolkata"

/-- `DEFAULT_TIMEZONE_OFFSET` (calendar_utils.py line 39). -/
def DEFAULT_TIMEZONE_OFFSET : String := "+05:30"

/-- `t.strftime('%Y-%m-%dT%H:%M:%S') + DEFAULT_TIMEZONE_OFFSET`, the canonical
form every repaired `dateTime` takes. -/
def canonicalStr (t : DT) : String :=
  String.mk (fmtChars t) ++ DEFAULT_TIMEZONE_OFFSET

/-! ## `strptime` (`_strptime.py` semantics for the formats the source uses)

Each directive is a reader producing the list of regex-alternative matches in
backtracking priority order; a whole format yields its matches via the `List`
monad, whose first element is the match the regex engine commits to.  The
alternations below are the exact patterns `_strptime.TimeRE` uses
(e.g. `%d` is `3[01]|[12]\d|0[1-9]|[1-9]`). -/

/-- Decimal value of a digit character. -/
def dVal (c : Char) : Option Nat :=
  if c.isDigit then some (c.toNat - 48) else none

/-- Literal character in a format string. -/
def rdLitL (c : Char) : List Char → List (List Char)
  | [] => []
  | x :: r => if x = c then [r] else []

/-- A whitespace run (`\s+`): literal spaces in a format match one or more
whitespace characters. -/
def rdWs1 : List Char → List (List Char)
  | [] => []
  | c :: r => if c.isWhitespace then [(c :: r).dropWhile Char.isWhitespace] else []

/-- `%Y`: exactly four digits. -/
def rdYear4 : List Char → List (Nat × List Char)
  | a :: b :: c :: d :: r =>
    match dVal a, dVal b, dVal c, dVal d with
    | some x, some y, some z, some w => [(1000 * x + 100 * y + 10 * z + w, r)]
    | _, _, _, _ => []
  | _ => []

/-- Helper: two digits with a bound on the tens digit. -/
def rdTwoDig (tensPred : Nat → Bool) (unitPred : Nat → Bool) :
    List Char → List (Nat × List Char)
  | a :: b :: r =>
    match dVal a, dVal b with
    | some t, some u => if tensPred t && unitPred u then [(10 * t + u, r)] else []
    | _, _ => []
  | _ => []

/-- Helper: a single digit with a bound. -/
def rdOneDig (p : Nat → Bool) : List Char → List (Nat × List Char)
  | a :: r =>
    match dVal a with
    | some u => if p u then [(u, r)] else []
    | none => []
  | [] => []

/-- `%m` and `%I`: `1[0-2]|0[1-9]|[1-9]`. -/
def rdMonth (cs : List Char) : List (Nat × List Char) :=
  rdTwoDig (· = 1) (· ≤ 2) cs ++ rdTwoDig (· = 0) (fun u => 1 ≤ u) cs ++
    rdOneDig (fun u => 1 ≤ u) cs

/-- Last alternative of `%d`: a space followed by a nonzero digit. -/
def rdSpDig : List Char → List (Nat × List Char)
  | ' ' :: a :: r =>
    (match dVal a with
     | some u => if 1 ≤ u then [(u, r)] else []
     | none => [])
  | _ => []

/-- `%d`: `3[0-1]|[1-2]\d|0[1-9]|[1-9]| [1-9]`. -/
def rdDay (cs : List Char) : List (Nat × List Char) :=
  rdTwoDig (· = 3) (· ≤ 1) cs ++
    rdTwoDig (fun t => 1 ≤ t && t ≤ 2) (fun _ => true) cs ++
    rdTwoDig (· = 0) (fun u => 1 ≤ u) cs ++ rdOneDig (fun u => 1 ≤ u) cs ++
    rdSpDig cs

/-- `%H`: `2[0-3]|[0-1]\d|\d`. -/
def rdHour (cs : List Char) : List (Nat × List Char) :=
  rdTwoDig (· = 2) (· ≤ 3) cs ++ rdTwoDig (· ≤ 1) (fun _ => true) cs ++
    rdOneDig (fun _ => true) cs

/-- `%M`: `[0-5]\d|\d`. -/
def rdMin (cs : List Char) : List (Nat × List Char) :=
  rdTwoDig (· ≤ 5) (fun _ => true) cs ++ rdOneDig (fun _ => true) cs

/-- `%S`: `6[0-1]|[0-5]\d|\d` (leap seconds match the regex; the `datetime`
constructor then rejects them). -/
def rdSec (cs : List Char) : List (Nat × List Char) :=
  rdTwoDig (· = 6) (· ≤ 1) cs ++ rdTwoDig (· ≤ 5) (fun _ => true) cs ++
    rdOneDig (fun _ => true) cs

/-- `\d\d` with no range restriction (the hour field of `%z`). -/
def rdDig2Any : List Char → List (Nat × List Char) :=
  rdTwoDig (fun _ => true) (fun _ => true)

/-- `[0-5]\d`, exactly two digits (the minute/second fields of `%z`). -/
def rdDig2Sexa : List Char → List (Nat × List Char) :=
  rdTwoDig (· ≤ 5) (fun _ => true)

/-- `:?` — greedy optional colon; `true` records that the colon was taken. -/
def rdColonOpt (cs : List Char) : List (Bool × List Char) :=
  (match cs with | ':' :: r => [(true, r)] | _ => []) ++ [(false, cs)]

/-- `(\.\d{1,6})?` — greedy optional fraction; its value only feeds the
microsecond part of the offset, which never changes validity here. -/
def rdFracOpt (cs : List Char) : List (List Char) :=
  (match cs with
   | '.' :: r =>
     let n := ((r.takeWhile Char.isDigit).take 6).length
     (List.range n).map (fun i => r.drop (n - i))
   | _ => []) ++ [cs]

/-- A matched `%z` token, before its value is computed. -/
structure ZTok where
  isZ : Bool := false
  sign : Int := 1
  hh : Nat := 0
  mm : Nat := 0
  hColon : Bool := false
  sec : Option (Bool × Nat) := none
deriving Repr

/-- `(:?[0-5]\d(\.\d{1,6})?)?` — greedy optional seconds of a `%z` offset,
remembering whether its colon was present. -/
def rdSecGroupOpt (cs : List Char) : List (Option (Bool × Nat) × List Char) :=
  (do
    let (c, r1) ← rdColonOpt cs
    let (ss, r2) ← rdDig2Sexa r1
    let r3 ← rdFracOpt r2
    pure (some (c, ss), r3)) ++ [(none, cs)]

/-- Main branch of `%z` after the sign. -/
def rdZBody (sign : Int) (r : List Char) : List (ZTok × List Char) := do
  let (hh, r1) ← rdDig2Any r
  let (hc, r2) ← rdColonOpt r1
  let (mm, r3) ← rdDig2Sexa r2
  let (sec, r4) ← rdSecGroupOpt r3
  pure ({ sign := sign, hh := hh, mm := mm, hColon := hc, sec := sec }, r4)

/-- `%z`: `[+-]\d\d:?[0-5]\d(:?[0-5]\d(\.\d{1,6})?)?|Z`. -/
def rdZ (cs : List Char) : List (ZTok × List Char) :=
  (match cs with
   | '+' :: r => rdZBody 1 r
   | '-' :: r => rdZBody (-1) r
   | _ => []) ++
  (match cs with | 'Z' :: r => [({ isZ := true : ZTok }, r)] | _ => [])

/-- The offset `_strptime` computes from the committed `%z` match; `none`
models the `ValueError` raised on inconsistent colon use (a seconds field
whose colon disagrees with the minute field's colon). -/
def zOffset (z : ZTok) : Option Int :=
  if z.isZ then some 0
  else
    match z.sec with
    | none => some (z.sign * (z.hh * 3600 + z.mm * 60))
    | some (sc, ss) =>
      if z.hColon = sc then some (z.sign * (z.hh * 3600 + z.mm * 60 + ss))
      else none

/-- Full English month names for `%B` (no name is a prefix of another, so the
length-descending order `_strptime` uses is immaterial). -/
def monthNames : List (String × Nat) :=
  [("january", 1), ("february", 2), ("march", 3), ("april", 4), ("may", 5),
   ("june", 6), ("july", 7), ("august", 8), ("september", 9), ("october", 10),
   ("november", 11), ("december", 12)]

/-- Case-insensitive literal word. -/
def tryNameCI (name : List Char) (num : Nat) (cs : List Char) : List (Nat × List Char) :=
  if (cs.take name.length).map Char.toLower = name then [(num, cs.drop name.length)]
  else []

/-- `%B` (the regexes are compiled with `IGNORECASE`). -/
def rdMonthName (cs : List Char) : List (Nat × List Char) :=
  monthNames.flatMap (fun p => tryNameCI p.1.data p.2 cs)

/-- `%p`: `AM|PM`, case-insensitive; `true` means PM. -/
def rdAmPm (cs : List Char) : List (Bool × List Char) :=
  (if (cs.take 2).map Char.toLower = ['a', 'm'] then [(false, cs.drop 2)] else []) ++
  (if (cs.take 2).map Char.toLower = ['p', 'm'] then [(true, cs.drop 2)] else [])

/-! ### The eleven formats `parse_datetime` tries (calendar_utils.py 166-178) -/

/-- `'%Y-%m-%dT%H:%M:%S%z'` (written as an explicit ordered-candidate chain;
`flatMap` over the candidate lists is the regex engine's backtracking). -/
def pIsoZ (cs : List Char) : List ((Nat × Nat × Nat × Nat × Nat × Nat × ZTok) × List Char) :=
  (rdYear4 cs).flatMap fun p1 =>
  (rdLitL '-' p1.2).flatMap fun r1 =>
  (rdMonth r1).flatMap fun p2 =>
  (rdLitL '-' p2.2).flatMap fun r2 =>
  (rdDay r2).flatMap fun p3 =>
  (rdLitL 'T' p3.2).flatMap fun r3 =>
  (rdHour r3).flatMap fun p4 =>
  (rdLitL ':' p4.2).flatMap fun r4 =>
  (rdMin r4).flatMap fun p5 =>
  (rdLitL ':' p5.2).flatMap fun r5 =>
  (rdSec r5).flatMap fun p6 =>
  (rdZ p6.2).map fun p7 =>
    ((p1.1, p2.1, p3.1, p4.1, p5.1, p6.1, p7.1), p7.2)

/-- `'%Y-%m-%dT%H:%M:%S'`. -/
def pIso (cs : List Char) : List ((Nat × Nat × Nat × Nat × Nat × Nat) × List Char) := do
  let (y, r) ← rdYear4 cs
  let r ← rdLitL '-' r
  let (mo, r) ← rdMonth r
  let r ← rdLitL '-' r
  let (da, r) ← rdDay r
  let r ← rdLitL 'T' r
  let (h, r) ← rdHour r
  let r ← rdLitL ':' r
  let (mi, r) ← rdMin r
  let r ← rdLitL ':' r
  let (s, r) ← rdSec r
  pure ((y, mo, da, h, mi, s), r)

/-- `'%Y-%m-%d %H:%M:%S'`. -/
def pSpaceHMS (cs : List Char) : List ((Nat × Nat × Nat × Nat × Nat × Nat) × List Char) := do
  let (y, r) ← rdYear4 cs
  let r ← rdLitL '-' r
  let (mo, r) ← rdMonth r
  let r ← rdLitL '-' r
  let (da, r) ← rdDay r
  let r ← rdWs1 r
  let (h, r) ← rdHour r
  let r ← rdLitL ':' r
  let (mi, r) ← rdMin r
  let r ← rdLitL ':' r
  let (s, r) ← rdSec r
  pure ((y, mo, da, h, mi, s), r)

/-- `'%Y-%m-%d %H:%M'`. -/
def pSpaceHM (cs : List Char) : List ((Nat × Nat × Nat × Nat × Nat × Nat) × List Char) := do
  let (y, r) ← rdYear4 cs
  let r ← rdLitL '-' r
  let (mo, r) ← rdMonth r
  let r ← rdLitL '-' r
  let (da, r) ← rdDay r
  let r ← rdWs1 r
  let (h, r) ← rdHour r
  let r ← rdLitL ':' r
  let (mi, r) ← rdMin r
  pure ((y, mo, da, h, mi, 0), r)

/-- `'%Y-%m-%d'`. -/
def pDateOnly (cs : List Char) : List ((Nat × Nat × Nat × Nat × Nat × Nat) × List Char) := do
  let (y, r) ← rdYear4 cs
  let r ← rdLitL '-' r
  let (mo, r) ← rdMonth r
  let r ← rdLitL '-' r
  let (da, r) ← rdDay r
  pure ((y, mo, da, 0, 0, 0), r)

/-- `'%m/%d/%Y %H:%M:%S'`. -/
def pUS_HMS (cs : List Char) : List ((Nat × Nat × Nat × Nat × Nat × Nat) × List Char) := do
  let (mo, r) ← rdMonth cs
  let r ← rdLitL '/' r
  let (da, r) ← rdDay r
  let r ← rdLitL '/' r
  let (y, r) ← rdYear4 r
  let r ← rdWs1 r
  let (h, r) ← rdHour r
  let r ← rdLitL ':' r
  let (mi, r) ← rdMin r
  let r ← rdLitL ':' r
  let (s, r) ← rdSec r
  pure ((y, mo, da, h, mi, s), r)

/-- `'%m/%d/%Y %H:%M'`. -/
def pUS_HM (cs : List Char) : List ((Nat × Nat × Nat × Nat × Nat × Nat) × List Char) := do
  let (mo, r) ← rdMonth cs
  let r ← rdLitL '/' r
  let (da, r) ← rdDay r
  let r ← rdLitL '/' r
  let (y, r) ← rdYear4 r
  let r ← rdWs1 r
  let (h, r) ← rdHour r
  let r ← rdLitL ':' r
  let (mi, r) ← rdMin r
  pure ((y, mo, da, h, mi, 0), r)

/-- `'%m/%d/%Y'`. -/
def pUS (cs : List Char) : List ((Nat × Nat × Nat × Nat × Nat × Nat) × List Char) := do
  let (mo, r) ← rdMonth cs
  let r ← rdLitL '/' r
  let (da, r) ← rdDay r
  let r ← rdLitL '/' r
  let (y, r) ← rdYear4 r
  pure ((y, mo, da, 0, 0, 0), r)

/-- `'%d/%m/%Y %H:%M:%S'`. -/
def pEU_HMS (cs : List Char) : List ((Nat × Nat × Nat × Nat × Nat × Nat) × List Char) := do
  let (da, r) ← rdDay cs
  let r ← rdLitL '/' r
  let (mo, r) ← rdMonth r
  let r ← rdLitL '/' r
  let (y, r) ← rdYear4 r
  let r ← rdWs1 r
  let (h, r) ← rdHour r
  let r ← rdLitL ':' r
  let (mi, r) ← rdMin r
  let r ← rdLitL ':' r
  let (s, r) ← rdSec r
  pure ((y, mo, da, h, mi, s), r)

/-- `'%d/%m/%Y %H:%M'`. -/
def pEU_HM (cs : List Char) : List ((Nat × Nat × Nat × Nat × Nat × Nat) × List Char) := do
  let (da, r) ← rdDay cs
  let r ← rdLitL '/' r
  let (mo, r) ← rdMonth r
  let r ← rdLitL '/' r
  let (y, r) ← rdYear4 r
  let r ← rdWs1 r
  let (h, r) ← rdHour r
  let r ← rdLitL ':' r
  let (mi, r) ← rdMin r
  pure ((y, mo, da, h, mi, 0), r)

/-- `'%d/%m/%Y'`. -/
def pEU (cs : List Char) : List ((Nat × Nat × Nat × Nat × Nat × Nat) × List Char) := do
  let (da, r) ← rdDay cs
  let r ← rdLitL '/' r
  let (mo, r) ← rdMonth r
  let r ← rdLitL '/' r
  let (y, r) ← rdYear4 r
  pure ((y, mo, da, 0, 0, 0), r)

/-- Commit to the regex engine's first match, require the whole string to be
consumed (`len(data_string) != found.end()` raises), then construct the
`datetime`. -/
def runFmt (p : List Char → List ((Nat × Nat × Nat × Nat × Nat × Nat) × List Char))
    (cs : List Char) : Option DT :=
  match (p cs).head? with
  | some ((y, mo, da, h, mi, s), rest) =>
    if rest = [] then mkDatetime y mo da h mi s else none
  | none => none

/-- Run `'%Y-%m-%dT%H:%M:%S%z'`: as `runFmt`, plus the offset-value
computation and the `timezone()` bound that the offset lies strictly within
±24h. -/
def runIsoZ (cs : List Char) : Option DT :=
  match (pIsoZ cs).head? with
  | some ((y, mo, da, h, mi, s, z), rest) =>
    (if rest = [] then
      match zOffset z with
      | some off =>
        if -86400 < off ∧ off < 86400 then mkDatetime y mo da h mi s else none
      | none => none
    else none)
  | none => none

/-- The eleven formats, in the order `parse_datetime` tries them. -/
def formatRunners : List (List Char → Option DT) :=
  [runIsoZ, runFmt pIso, runFmt pSpaceHMS, runFmt pSpaceHM, runFmt pDateOnly,
   runFmt pUS_HMS, runFmt pUS_HM, runFmt pUS,
   runFmt pEU_HMS, runFmt pEU_HM, runFmt pEU]

/-- The `for fmt in formats: try ... except ValueError: continue` loop. -/
def tryFormats (cs : List Char) : Option DT :=
  formatRunners.findSome? (fun f => f cs)

/-! ### Natural-language fallback (calendar_utils.py 186-195)

`re.search(r'(\w+ \d{1,2}, \d{4})(?:.+?(\d{1,2}(?::\d{2})? [AP]M))?', s)`
followed by `strptime(f"{date_part} {time_part}", '%B %d, %Y %I:%M %p')`
with `time_part` defaulting to `"12:00 PM"`. -/

/-- `\w` (ASCII part; the source never feeds non-ASCII word characters). -/
def isWordChar (c : Char) : Bool := c.isAlphanum || c = '_'

/-- Four digit characters for the `\d{4}` year group. -/
def year4Chs : List Char → Option (List Char × List Char)
  | y1 :: y2 :: y3 :: y4 :: r =>
    if y1.isDigit && y2.isDigit && y3.isDigit && y4.isDigit then
      some ([y1, y2, y3, y4], r)
    else none
  | _ => none

/-- `\d{1,2}, \d{4}`: the day digits (greedy, two before one) followed by the
literal comma-space and the year. -/
def dayYear (r1 : List Char) : Option (List Char × List Char × List Char) :=
  (match r1 with
   | a :: b :: ',' :: ' ' :: rest =>
     if a.isDigit && b.isDigit then (year4Chs rest).map (fun p => ([a, b], p.1, p.2))
     else none
   | _ => none) <|>
  (match r1 with
   | a :: ',' :: ' ' :: rest =>
     if a.isDigit then (year4Chs rest).map (fun p => ([a], p.1, p.2))
     else none
   | _ => none)

/-- `\d{1,2}` of the time group (greedy). -/
def digCands12 : List Char → List (List Char × List Char)
  | a :: b :: r =>
    (if a.isDigit && b.isDigit then [([a, b], r)] else []) ++
    (if a.isDigit then [([a], b :: r)] else [])
  | [a] => if a.isDigit then [([a], [])] else []
  | [] => []

/-- `(?::\d{2})?` (greedy optional minutes). -/
def colonOpt2 : List Char → List (List Char × List Char)
  | ':' :: c1 :: c2 :: r =>
    (if c1.isDigit && c2.isDigit then [([':', c1, c2], r)] else []) ++
    [([], ':' :: c1 :: c2 :: r)]
  | cs => [([], cs)]

/-- `\d{1,2}(?::\d{2})? [AP]M` anchored at the head; returns the matched text
(group 2 of the search pattern). -/
def timeMatchAt (cs : List Char) : Option (List Char) :=
  (do
    let (d, r1) ← digCands12 cs
    let (col, r2) ← colonOpt2 r1
    let r3 ← rdLitL ' ' r2
    match r3 with
    | c :: 'M' :: _ =>
      if c = 'A' || c = 'P' then pure (d ++ col ++ [' ', c, 'M'])
      else ([] : List (List Char))
    | _ => []).head?

/-- `.+?(time)`: consume at least one non-newline character lazily, then match
the time group at the earliest possible position. -/
def nlTimeSearch : List Char → Option (List Char)
  | [] => none
  | c :: r =>
    if c = '\n' then none
    else
      match timeMatchAt r with
      | some t => some t
      | none => nlTimeSearch r

/-- The whole pattern anchored at the head: group 1 (`\w+ \d{1,2}, \d{4}`) and
the optional group 2. -/
def nlMatchAt (cs : List Char) : Option (List Char × Option (List Char)) :=
  let w := cs.takeWhile isWordChar
  if w.isEmpty then none
  else
    match cs.dropWhile isWordChar with
    | ' ' :: r1 =>
      match dayYear r1 with
      | some (dayChs, yearChs, rest) =>
        some (w ++ ' ' :: dayChs ++ ',' :: ' ' :: yearChs, nlTimeSearch rest)
      | none => none
    | _ => none

/-- `re.search`: leftmost position at which the pattern matches. -/
def nlSearch : List Char → Option (List Char × Option (List Char))
  | [] => none
  | c :: r =>
    match nlMatchAt (c :: r) with
    | some res => some res
    | none => nlSearch r

/-- `'%B %d, %Y %I:%M %p'` (whitespace in a format matches `\s+`). -/
def pNL (cs : List Char) : List ((Nat × Nat × Nat × Nat × Nat × Bool) × List Char) := do
  let (mo, r) ← rdMonthName cs
  let r ← rdWs1 r
  let (da, r) ← rdDay r
  let r ← rdLitL ',' r
  let r ← rdWs1 r
  let (y, r) ← rdYear4 r
  let r ← rdWs1 r
  let (h12, r) ← rdMonth r
  let r ← rdLitL ':' r
  let (mi, r) ← rdMin r
  let r ← rdWs1 r
  let (pm, r) ← rdAmPm r
  pure ((y, mo, da, h12, mi, pm), r)

/-- Run the `%B` format: commit, require full consumption, fold `%I`/`%p` into
a 24-hour value, construct. -/
def runNL (cs : List Char) : Option DT :=
  match (pNL cs).head? with
  | some ((y, mo, da, h12, mi, pm), rest) =>
    if rest = [] then
      let h := if pm then (if h12 = 12 then 12 else h12 + 12)
               else (if h12 = 12 then 0 else h12)
      mkDatetime y mo da h mi 0
    else none
  | none => none

/-- Lines 186-195: search, then a single `strptime` attempt whose failure is
swallowed by `except Exception: pass`. -/
def nlFallback (cs : List Char) : Option DT :=
  match nlSearch cs with
  | some (datePart, timeOpt) =>
    runNL (datePart ++ ' ' :: (timeOpt.getD ("12:00 PM".data)))
  | none => none

/-- `parse_datetime` (calendar_utils.py 158-197) on an actual string. -/
def parseDatetime (s : String) : Option DT :=
  if s.data.isEmpty then none
  else
    match tryFormats s.data with
    | some d => some d
    | none => nlFallback s.data

/-! ## `validate_event_data` (calendar_utils.py 199-273)

The single `datetime.now()` of a run is the parameter `now`; `current_year`
is `now.year` (line 210).  The only region of the function that can raise is
the datetime-parsing block (lines 238-256), wrapped in `try/except Exception`
(lines 257-264); it is modelled in `Except String`, with the handler applied
in `dtHandled`. -/

/-- `parse_datetime` on an arbitrary value.  A falsy argument returns `None`
(line 163); a truthy non-string reaches `strptime`, which raises `TypeError`
— uncaught by the `except ValueError` of the format loop. -/
def parseDatetimeV (v : Val) : Except String (Option DT)  :=
  if truthy v = false then Except.ok none
  else
    match v with
    | Val.str s => Except.ok (parseDatetime s)
    | _ => Except.error ("strptime() argument 1 must be str, not " ++ pyTypeName v)

/-- Which hour offset a field's synthesized default uses
(`1 if time_field == 'start' else 2`, lines 217/247/262). -/
def offsetFor (fld : String) : Nat := if fld = "start" then 1 else 2

/-- The synthesized default `dateTime` string for a field:
`(now + timedelta(hours=offset)).strftime('%Y-%m-%dT%H:%M:%S') + DEFAULT_TIMEZONE_OFFSET`. -/
def defaultTimeStr (now : DT) (fld : String) : String :=
  canonicalStr (addHours now (offsetFor fld))

/-- The warning of line 244. -/
def cnpMsg (fld : String) (v : Val) : String :=
  "Could not parse " ++ fld ++ " time: " ++ pyStr v

/-- The warning of line 258. -/
def errMsg (fld : String) (m : String) : String :=
  "Error parsing " ++ fld ++ " time: " ++ m

/-- `d.replace(year=y)` — raises `ValueError` when the day does not exist in
the new year (Feb 29 mapped to a non-leap year) or the year is out of range. -/
def replaceYear (d : DT) (y : Nat) : Except String DT :=
  if 1 ≤ y ∧ y ≤ 9999 then
    if d.day ≤ daysInMonth y d.month then Except.ok { d with year := y }
    else Except.error "day is out of range for month"
  else Except.error ("year " ++ toString y ++ " is out of range")

/-- Lines 238-256, the raising region: given the truthy `dateTime` value,
produce the new `dateTime` string and the warnings appended (an `error` is a
propagating Python exception). -/
def dtAttempt (now : DT) (fld : String) (v : Val) : Except String (String × List String) :=
  match parseDatetimeV v with
  | Except.error m => Except.error m
  | Except.ok none => Except.ok (defaultTimeStr now fld, [cnpMsg fld v])
  | Except.ok (some d) =>
    match (if d.year < now.year then replaceYear d now.year else Except.ok d) with
    | Except.error m => Except.error m
    | Except.ok d' => Except.ok (canonicalStr d', [])

/-- Lines 238-264: the `try/except Exception` around the raising region. -/
def dtHandled (now : DT) (fld : String) (v : Val) : String × List String :=
  match dtAttempt now fld v with
  | Except.ok r => r
  | Except.error m => (defaultTimeStr now fld, [errMsg fld m])

/-- Lines 206-207: `summary` defaulted when missing or falsy. -/
def ensureSummary (e : Obj) : Obj :=
  match lookupKey "summary" e with
  | none => setKey "summary" (Val.str "Untitled Event") e
  | some v => if truthy v then e else setKey "summary" (Val.str "Untitled Event") e

/-- Lines 229-231: inject the default `timeZone` when absent. -/
def injectTZ (d : Obj) : Obj :=
  match lookupKey "timeZone" d with
  | none => setKey "timeZone" (Val.str DEFAULT_TIMEZONE) d
  | some _ => d

/-- The dict synthesized for an entirely missing field (lines 214-227). -/
def synthFields (now : DT) (fld : String) : Obj :=
  [("dateTime", Val.str (defaultTimeStr now fld)),
   ("timeZone", Val.str DEFAULT_TIMEZONE)]

/-- One iteration of the `for time_field in ['start', 'end']` loop
(lines 213-264). -/
def processTimeField (now : DT) (fld : String) (e : Obj) : Obj × List String :=
  match lookupKey fld e with
  | none => (setKey fld (Val.dict (synthFields now fld)) e, [])
  | some (Val.dict d) =>
    let d1 := injectTZ d
    (match lookupKey "dateTime" d1 with
     | some dv =>
       if truthy dv then
         let (sNew, ws) := dtHandled now fld dv
         (setKey fld (Val.dict (setKey "dateTime" (Val.str sNew) d1)) e, ws)
       else (setKey fld (Val.dict d1) e, [])
     | none => (setKey fld (Val.dict d1) e, []))
  | some _ => (e, [])

/-- Lines 267-271: promote bare-string attendees to `{'email': s}`. -/
def normalizeAttendees (e : Obj) : Obj :=
  match lookupKey "attendees" e with
  | some (Val.list items) =>
    setKey "attendees"
      (Val.list (items.map (fun a =>
        match a with
        | Val.str s => Val.dict [("email", Val.str s)]
        | v => v))) e
  | _ => e

/-- `validate_event_data` (lines 199-273): returns the mutated copy and the
accumulated `parsing_errors`. -/
def validateEventData (now : DT) (e : Obj) : Obj × List String :=
  let e0 := ensureSummary e
  let p1 := processTimeField now "start" e0
  let p2 := processTimeField now "end" p1.1
  (normalizeAttendees p2.1, p1.2 ++ p2.2)

/-! ## `json.loads` (used by `extract_json_from_text`)

Standard JSON with one modelling boundary: fractional/exponent numeric
literals are not modelled (they parse to Python floats, which carry no weight
in any claim); a number token followed by `.`/`e`/`E` is treated as a parse
failure here. -/

/-- JSON insignificant whitespace. -/
def jsonWs (c : Char) : Bool := c = ' ' || c = '\t' || c = '\n' || c = '\r'

/-- Skip insignificant whitespace. -/
def skipWs (cs : List Char) : List Char := cs.dropWhile jsonWs

/-- Hexadecimal digit value. -/
def hexVal (c : Char) : Option Nat :=
  if c.isDigit then some (c.toNat - 48)
  else if 'a' ≤ c ∧ c ≤ 'f' then some (c.toNat - 87)
  else if 'A' ≤ c ∧ c ≤ 'F' then some (c.toNat - 55)
  else none

/-- Body of a JSON string after the opening quote (escapes as in the `json`
module; a `\uXXXX` that is not a valid scalar value degrades to `NUL`, a
corner no claim touches). -/
def jsonStrBody : List Char → Option (List Char × List Char)
  | [] => none
  | '"' :: rest => some ([], rest)
  | '\\' :: 'u' :: a :: b :: c :: d :: rest =>
    (match hexVal a, hexVal b, hexVal c, hexVal d with
     | some x, some y, some z, some w =>
       (jsonStrBody rest).map (fun p =>
         (Char.ofNat (4096 * x + 256 * y + 16 * z + w) :: p.1, p.2))
     | _, _, _, _ => none)
  | '\\' :: e :: rest =>
    (match e with
     | '"' => some '"' | '\\' => some '\\' | '/' => some '/'
     | 'b' => some (Char.ofNat 8) | 'f' => some (Char.ofNat 12)
     | 'n' => some '\n' | 'r' => some '\r' | 't' => some '\t'
     | _ => none).bind
      (fun ch => (jsonStrBody rest).map
        (fun (p : List Char × List Char) => (ch :: p.1, p.2)))
  | c :: rest =>
    if c.toNat < 32 then none
    else (jsonStrBody rest).map (fun p => (c :: p.1, p.2))

/-- A JSON integer literal: `-?(0|[1-9]\d*)`, rejected if a fraction or
exponent follows (see the module comment). -/
def jsonNum (cs : List Char) : Option (Val × List Char) :=
  let (neg, cs1) := match cs with
    | '-' :: r => (true, r)
    | _ => (false, cs)
  match cs1 with
  | c :: _ =>
    if c.isDigit then
      let ds := cs1.takeWhile Char.isDigit
      let rest := cs1.dropWhile Char.isDigit
      if 2 ≤ ds.length ∧ c = '0' then none
      else
        match rest with
        | '.' :: _ => none
        | 'e' :: _ => none
        | 'E' :: _ => none
        | _ =>
          let n : Nat := ds.foldl (fun acc d => 10 * acc + (d.toNat - 48)) 0
          some (Val.num (if neg then -(n : Int) else (n : Int)), rest)
    else none
  | [] => none

mutual

/-- A JSON value at the head of the input (no leading whitespace). -/
def jsonVal : Nat → List Char → Option (Val × List Char)
  | 0, _ => none
  | fuel + 1, cs =>
    match cs with
    | '{' :: rest => jsonObj fuel (skipWs rest) true []
    | '[' :: rest => jsonArr fuel (skipWs rest) true []
    | '"' :: rest => (jsonStrBody rest).map (fun p => (Val.str (String.mk p.1), p.2))
    | 't' :: 'r' :: 'u' :: 'e' :: rest => some (Val.bool true, rest)
    | 'f' :: 'a' :: 'l' :: 's' :: 'e' :: rest => some (Val.bool false, rest)
    | 'n' :: 'u' :: 'l' :: 'l' :: rest => some (Val.null, rest)
    | _ => jsonNum cs

/-- Members of an object after `{` (duplicate keys: the last value wins at
the first occurrence's position, as in a CPython dict). -/
def jsonObj : Nat → List Char → Bool → Obj → Option (Val × List Char)
  | 0, _, _, _ => none
  | fuel + 1, cs, first, acc =>
    match cs with
    | '}' :: rest => if first then some (Val.dict acc, rest) else none
    | '"' :: rest =>
      (jsonStrBody rest).bind (fun p =>
        match skipWs p.2 with
        | ':' :: r2 =>
          (jsonVal fuel (skipWs r2)).bind (fun q =>
            let acc' := setKey (String.mk p.1) q.1 acc
            match skipWs q.2 with
            | ',' :: r3 => jsonObj fuel (skipWs r3) false acc'
            | '}' :: r3 => some (Val.dict acc', r3)
            | _ => none)
        | _ => none)
    | _ => none

/-- Elements of an array after `[`. -/
def jsonArr : Nat → List Char → Bool → List Val → Option (Val × List Char)
  | 0, _, _, _ => none
  | fuel + 1, cs, first, acc =>
    match cs with
    | ']' :: rest => if first then some (Val.list acc, rest) else none
    | _ =>
      (jsonVal fuel cs).bind (fun q =>
        match skipWs q.2 with
        | ',' :: r2 => jsonArr fuel (skipWs r2) false (acc ++ [q.1])
        | ']' :: r2 => some (Val.list (acc ++ [q.1]), r2)
        | _ => none)

end

/-- `json.loads` (returns `none` where Python raises `JSONDecodeError`). -/
def jsonLoads (s : String) : Option Val :=
  match jsonVal (s.data.length + 1) (skipWs s.data) with
  | some (v, rest) => if (skipWs rest).isEmpty then some v else none
  | none => none

/-! ## `extract_json_from_text` (llm_utils.py 46-101) -/

/-- Python regex `\s` (ASCII part; exotic Unicode whitespace unmodelled). -/
def isPyWs (c : Char) : Bool :=
  c = ' ' || c = '\t' || c = '\n' || c = '\r' || c.toNat = 11 || c.toNat = 12

/-- The backtick character (written by code point). -/
def tick : Char := Char.ofNat 96

/-- `re.search(r'({[\s\S]*})', text)`: the leftmost `{` that has some later
`}`, through the last `}` of the whole text (greedy star). -/
def braceSub : List Char → Option (List Char)
  | [] => none
  | c :: t =>
    if c = '\x7b' ∧ t.contains '\x7d' then
      some ((((c :: t).reverse.dropWhile (· ≠ '\x7d')).reverse))
    else braceSub t

/-- Strategy (a), lines 51-60: brace-delimited substring fed to `json.loads`;
a parse failure falls through. -/
def braceScan (t : String) : Option Val :=
  (braceSub t.data).bind (fun sub => jsonLoads (String.mk sub))

/-- Does the list start with three backticks? -/
def isFenceHead (cs : List Char) : Bool :=
  match cs with
  | a :: b :: c :: _ => a = tick && b = tick && c = tick
  | _ => false

/-- Position of the first ```` ``` ```` occurrence. -/
def idxOfFence : List Char → Option Nat
  | [] => none
  | c :: t =>
    if isFenceHead (c :: t) then some 0 else (idxOfFence t).map (· + 1)

/-- Strip the trailing whitespace run (the greedy `\s*` before the closing
fence, which minimizes the lazy content group). -/
def dropTrailingWs (l : List Char) : List Char :=
  (l.reverse.dropWhile isPyWs).reverse

/-- After an opening fence (and optional greedy `json` tag): skip the leading
greedy `\s*`, find the earliest closing fence, return the lazy content group. -/
def fenceClose (base : List Char) : Option (List Char) :=
  let content0 := base.dropWhile isPyWs
  match idxOfFence content0 with
  | some j => some (dropTrailingWs (content0.take j))
  | none => none

/-- `re.search(r'```(?:json)?\s*([\s\S]*?)\s*```', text)`: leftmost opening
fence that has a closing fence. -/
def fenceSearch : List Char → Option (List Char)
  | [] => none
  | c :: t =>
    if isFenceHead (c :: t) then
      let base := (c :: t).drop 3
      let base := if base.take 4 = "json".data then base.drop 4 else base
      match fenceClose base with
      | some grp => some grp
      | none => fenceSearch t
    else fenceSearch t

/-- Strategy (b), lines 62-71: fenced code block fed to `json.loads`. -/
def fencedStrat (t : String) : Option Val :=
  (fenceSearch t.data).bind (fun g => jsonLoads (String.mk g))

/-- `"?` — greedy optional quote. -/
def quoteOpt (cs : List Char) : List (List Char) :=
  (match cs with | '"' :: r => [r] | _ => []) ++ [cs]

/-- Anchored match of `"?NAME"?\s*:\s*"([^"]*)"`, returning the captured
group and the rest of the input after the match. -/
def fieldMatchAt (name : List Char) (cs : List Char) : Option (String × List Char) :=
  (do
    let r1 ← quoteOpt cs
    let r2 ← if r1.take name.length = name then [r1.drop name.length] else ([] : List (List Char))
    let r3 ← quoteOpt r2
    let r4 := r3.dropWhile isPyWs
    let r5 ← rdLitL ':' r4
    let r6 := r5.dropWhile isPyWs
    let r7 ← rdLitL '"' r6
    let captured := r7.takeWhile (· ≠ '"')
    match r7.dropWhile (· ≠ '"') with
    | '"' :: r9 => pure (String.mk captured, r9)
    | _ => []).head?

/-- `re.search` for a field pattern: leftmost match's group. -/
def fieldSearch (name : List Char) : List Char → Option String
  | [] => none
  | c :: t =>
    match fieldMatchAt name (c :: t) with
    | some p => some p.1
    | none => fieldSearch name t

/-- `re.findall` for the `dateTime` pattern: leftmost matches, resuming after
each match's end (fuelled by the input length). -/
def dtFindAll : Nat → List Char → List String
  | 0, _ => []
  | _ + 1, [] => []
  | fuel + 1, c :: t =>
    match fieldMatchAt "dateTime".data (c :: t) with
    | some (v, rest) => v :: dtFindAll fuel rest
    | none => dtFindAll fuel t

/-- Strategy (c), lines 73-98: field-by-field regex extraction; an empty
result dict returns `None` (line 95-101). -/
def fieldStrat (t : String) : Option Val :=
  let cs := t.data
  let ed := (match fieldSearch "summary".data cs with
    | some v => [("summary", Val.str v)] | none => [])
  let ed := ed ++ (match fieldSearch "location".data cs with
    | some v => [("location", Val.str v)] | none => [])
  let ed := ed ++ (match fieldSearch "description".data cs with
    | some v => [("description", Val.str v)] | none => [])
  let dts := dtFindAll (cs.length + 1) cs
  let ed := match dts with
    | a :: b :: _ =>
      ed ++ [("start", Val.dict [("dateTime", Val.str a),
                                 ("timeZone", Val.str "America/Los_Angeles")]),
             ("end", Val.dict [("dateTime", Val.str b),
                               ("timeZone", Val.str "America/Los_Angeles")])]
    | _ => ed
  if ed.isEmpty then none else some (Val.dict ed)

/-- `extract_json_from_text` (lines 46-101): three strategies in order, first
success wins, `None` when all fail. -/
def extractJsonFromText (t : String) : Option Val :=
  match braceScan t with
  | some v => some v
  | none =>
    match fencedStrat t with
    | some v => some v
    | none => fieldStrat t

/-! ## `query_groq` (llm_utils.py 17-44)

The HTTP layer is the function's environment: attempt `i` of
`requests.post` either raises (`exc`) or yields a response with a status
code, a body text, and a `.json()` outcome.  The returned trace records each
`time.sleep(retry_delay)` performed. -/

/-- Outcome of one `requests.post` attempt. -/
inductive HttpAttempt where
  | resp (code : Nat) (text : String) (json : Except String Val)
  | exc (msg : String)

/-- The `for attempt in range(max_retries)` loop; returns the value and the
list of sleeps performed. -/
def queryGroqLoop (oracle : Nat → HttpAttempt) (retryDelay : Nat) :
    Nat → Nat → Val × List Nat
  | _, 0 =>
    (Val.dict [("error",
      Val.str "Max retries reached. Model is still loading or unavailable.")], [])
  | attempt, n + 1 =>
    match oracle attempt with
    | HttpAttempt.exc m =>
      (Val.dict [("error", Val.str ("An exception occurred: " ++ m))], [])
    | HttpAttempt.resp code text js =>
      if code = 200 then
        match js with
        | Except.ok j => (j, [])
        | Except.error m =>
          (Val.dict [("error", Val.str ("An exception occurred: " ++ m))], [])
      else if code = 503 then
        let (v, sleeps) := queryGroqLoop oracle retryDelay (attempt + 1) n
        (v, retryDelay :: sleeps)
      else
        (Val.dict [("error",
            Val.str ("API request failed with status code " ++ toString code)),
          ("details", Val.str text)], [])

/-- `query_groq` with its default `max_retries=5`, `retry_delay=10` (the
values every caller uses). -/
def queryGroq (oracle : Nat → HttpAttempt) : Val × List Nat :=
  queryGroqLoop oracle 10 0 5

/-! ## Association-list lemmas -/

theorem lookup_setKey_self (k : String) (v : Val) (e : Obj) :
    lookupKey k (setKey k v e) = some v := by
  induction e with
  | nil => simp [setKey, lookupKey]
  | cons hd t ih =>
    by_cases h : hd.1 = k <;> simp [setKey, lookupKey, h, ih]

theorem lookup_setKey_other {k k' : String} (h : k' ≠ k) (v : Val) (e : Obj) :
    lookupKey k (setKey k' v e) = lookupKey k e := by
  induction e with
  | nil => simp [setKey, lookupKey, h]
  | cons hd t ih =>
    by_cases h2 : hd.1 = k' <;> simp [setKey, lookupKey, h2, h, ih]

/-- `processTimeField` writes only at its own field. -/
theorem processTimeField_frame (now : DT) (fld : String) (e : Obj) {k : String}
    (h : fld ≠ k) :
    lookupKey k (processTimeField now fld e).1 = lookupKey k e := by
  unfold processTimeField
  cases hv : lookupKey fld e with
  | none => simpa using lookup_setKey_other h _ e
  | some v =>
    cases v <;> simp only []
    case dict d =>
      cases hdt : lookupKey "dateTime" (injectTZ d) with
      | none => simpa using lookup_setKey_other h _ e
      | some dv =>
        by_cases ht : truthy dv = true <;>
          simp [ht, lookup_setKey_other h]

/-- `ensureSummary` writes only `summary`. -/
theorem ensureSummary_frame (e : Obj) {k : String} (h : k ≠ "summary") :
    lookupKey k (ensureSummary e) = lookupKey k e := by
  unfold ensureSummary
  cases lookupKey "summary" e with
  | none => exact lookup_setKey_other (fun hk => h hk.symm) _ e
  | some v =>
    by_cases ht : truthy v = true <;>
      simp [ht, lookup_setKey_other (fun hk => h hk.symm)]

/-- `normalizeAttendees` writes only `attendees`. -/
theorem normalizeAttendees_frame (e : Obj) {k : String} (h : k ≠ "attendees") :
    lookupKey k (normalizeAttendees e) = lookupKey k e := by
  unfold normalizeAttendees
  cases hv : lookupKey "attendees" e with
  | none => rfl
  | some v =>
    cases v <;> simp only []
    case list items => exact lookup_setKey_other (fun hk => h hk.symm) _ e

/-! ## Warning bookkeeping -/

/-- Boolean list-prefix test. -/
def listIsPrefix : List Char → List Char → Bool
  | [], _ => true
  | _ :: _, [] => false
  | a :: as, b :: bs => a == b && listIsPrefix as bs

/-- A warning "names" a field: it is that field's could-not-parse or
error-parsing message. -/
def isFldWarnB (fld : String) (w : String) : Bool :=
  listIsPrefix ("Could not parse " ++ fld).data w.data ||
    listIsPrefix ("Error parsing " ++ fld).data w.data

theorem listIsPrefix_append (l r : List Char) : listIsPrefix l (l ++ r) = true := by
  induction l with
  | nil => rfl
  | cons a t ih => simp [listIsPrefix, ih]

theorem isFldWarnB_cnp (fld : String) (v : Val) :
    isFldWarnB fld (cnpMsg fld v) = true := by
  have h : (cnpMsg fld v).data =
      ("Could not parse " ++ fld).data ++ (" time: " ++ pyStr v).data := by
    simp [cnpMsg]
  unfold isFldWarnB
  rw [h, listIsPrefix_append]
  simp

theorem isFldWarnB_err (fld : String) (m : String) :
    isFldWarnB fld (errMsg fld m) = true := by
  have h : (errMsg fld m).data =
      ("Error parsing " ++ fld).data ++ (" time: " ++ m).data := by
    simp [errMsg]
  unfold isFldWarnB
  rw [h, listIsPrefix_append]
  simp

theorem isFldWarnB_start_cnp_end (v : Val) :
    isFldWarnB "start" (cnpMsg "end" v) = false := rfl

theorem isFldWarnB_start_err_end (m : String) :
    isFldWarnB "start" (errMsg "end" m) = false := rfl

theorem isFldWarnB_end_cnp_start (v : Val) :
    isFldWarnB "end" (cnpMsg "start" v) = false := rfl

theorem isFldWarnB_end_err_start (m : String) :
    isFldWarnB "end" (errMsg "start" m) = false := rfl

/-- The warnings a `dtHandled` call can append. -/
theorem dtHandled_warn (now : DT) (fld : String) (v : Val) :
    (dtHandled now fld v).2 = [] ∨ (dtHandled now fld v).2 = [cnpMsg fld v] ∨
      ∃ m, (dtHandled now fld v).2 = [errMsg fld m] := by
  unfold dtHandled dtAttempt
  cases hp : parseDatetimeV v with
  | error m => simp
  | ok pd =>
    cases pd with
    | none => simp
    | some d =>
      cases hr : (if d.year < now.year then replaceYear d now.year else Except.ok d) with
      | error m => simp [hr]
      | ok d' => simp [hr]

/-- Every repaired `dateTime` string is the canonical print of some datetime. -/
theorem dtHandled_val (now : DT) (fld : String) (v : Val) :
    ∃ y, (dtHandled now fld v).1 = canonicalStr y := by
  unfold dtHandled dtAttempt
  cases hp : parseDatetimeV v with
  | error m => exact ⟨addHours now (offsetFor fld), by simp [defaultTimeStr]⟩
  | ok pd =>
    cases pd with
    | none => exact ⟨addHours now (offsetFor fld), by simp [defaultTimeStr]⟩
    | some d =>
      cases hr : (if d.year < now.year then replaceYear d now.year else Except.ok d) with
      | error m =>
        exact ⟨addHours now (offsetFor fld), by simp [hr, defaultTimeStr]⟩
      | ok d' => exact ⟨d', by simp [hr]⟩

/-- The three possible warning lists of a `processTimeField` run. -/
theorem processTimeField_warn_cases (now : DT) (fld : String) (e : Obj) :
    (processTimeField now fld e).2 = [] ∨
      (∃ u, (processTimeField now fld e).2 = [cnpMsg fld u]) ∨
      ∃ m, (processTimeField now fld e).2 = [errMsg fld m] := by
  unfold processTimeField
  cases hv : lookupKey fld e with
  | none => simp
  | some v =>
    cases v <;> try simp
    case dict d =>
      cases hdt : lookupKey "dateTime" (injectTZ d) with
      | none => simp
      | some dv =>
        by_cases ht : truthy dv = true
        · simp only [ht, if_true]
          rcases dtHandled_warn now fld dv with h | h | ⟨m, h⟩
          · exact Or.inl h
          · exact Or.inr (Or.inl ⟨dv, h⟩)
          · exact Or.inr (Or.inr ⟨m, h⟩)
        · simp [ht]

/-- Warnings from processing the *other* field never name `fld`. -/
theorem filter_other_warn (now : DT) (fld fld' : String) (e : Obj)
    (hcnp : ∀ u, isFldWarnB fld (cnpMsg fld' u) = false)
    (herr : ∀ m, isFldWarnB fld (errMsg fld' m) = false) :
    ((processTimeField now fld' e).2).filter (isFldWarnB fld) = [] := by
  rcases processTimeField_warn_cases now fld' e with h | ⟨u, h⟩ | ⟨m, h⟩ <;>
    simp [h, List.filter, hcnp, herr]

/-! ## Branch lemmas for `processTimeField` and `validateEventData` -/

theorem lookup_injectTZ_dateTime (d : Obj) :
    lookupKey "dateTime" (injectTZ d) = lookupKey "dateTime" d := by
  unfold injectTZ
  cases lookupKey "timeZone" d with
  | none => exact lookup_setKey_other (by decide) _ d
  | some _ => rfl

theorem lookup_injectTZ_timeZone (d : Obj) :
    lookupKey "timeZone" (injectTZ d) =
      some ((lookupKey "timeZone" d).getD (Val.str DEFAULT_TIMEZONE)) := by
  unfold injectTZ
  cases h : lookupKey "timeZone" d with
  | none => simp [lookup_setKey_self]
  | some v => simp [h]

theorem processTimeField_absent {now : DT} {fld : String} {e : Obj}
    (hv : lookupKey fld e = none) :
    processTimeField now fld e = (setKey fld (Val.dict (synthFields now fld)) e, []) := by
  unfold processTimeField; rw [hv]

theorem processTimeField_nondict {now : DT} {fld : String} {e : Obj} {v : Val}
    (hv : lookupKey fld e = some v) (hd : isDict v = false) :
    processTimeField now fld e = (e, []) := by
  unfold processTimeField; rw [hv]
  cases v <;> first | rfl | simp [isDict] at hd

theorem processTimeField_dict_noDT {now : DT} {fld : String} {e : Obj} {d : Obj}
    (hv : lookupKey fld e = some (Val.dict d))
    (hdt : lookupKey "dateTime" d = none) :
    processTimeField now fld e = (setKey fld (Val.dict (injectTZ d)) e, []) := by
  unfold processTimeField
  simp only [hv, lookup_injectTZ_dateTime, hdt]

theorem processTimeField_dict_falsy {now : DT} {fld : String} {e : Obj} {d : Obj}
    {dv : Val} (hv : lookupKey fld e = some (Val.dict d))
    (hdt : lookupKey "dateTime" d = some dv) (ht : truthy dv = false) :
    processTimeField now fld e = (setKey fld (Val.dict (injectTZ d)) e, []) := by
  unfold processTimeField
  simp only [hv, lookup_injectTZ_dateTime, hdt, ht]
  simp

theorem processTimeField_dict_truthy {now : DT} {fld : String} {e : Obj} {d : Obj}
    {dv : Val} (hv : lookupKey fld e = some (Val.dict d))
    (hdt : lookupKey "dateTime" d = some dv) (ht : truthy dv = true) :
    processTimeField now fld e =
      (setKey fld (Val.dict (setKey "dateTime" (Val.str (dtHandled now fld dv).1) (injectTZ d))) e,
       (dtHandled now fld dv).2) := by
  unfold processTimeField
  simp only [hv, lookup_injectTZ_dateTime, hdt, ht, if_true]

theorem validate_fst (now : DT) (e : Obj) :
    (validateEventData now e).1 =
      normalizeAttendees
        (processTimeField now "end" (processTimeField now "start" (ensureSummary e)).1).1 := rfl

theorem validate_snd (now : DT) (e : Obj) :
    (validateEventData now e).2 =
      (processTimeField now "start" (ensureSummary e)).2 ++
        (processTimeField now "end" (processTimeField now "start" (ensureSummary e)).1).2 := rfl

/-- Reading a time field out of the final result sees the value its own
`processTimeField` run left. -/
theorem validate_lookup_start (now : DT) (e : Obj) :
    lookupKey "start" (validateEventData now e).1 =
      lookupKey "start" (processTimeField now "start" (ensureSummary e)).1 := by
  rw [validate_fst, normalizeAttendees_frame _ (by decide),
    processTimeField_frame _ _ _ (by decide)]

theorem validate_lookup_end (now : DT) (e : Obj) :
    lookupKey "end" (validateEventData now e).1 =
      lookupKey "end" (processTimeField now "end" (processTimeField now "start" (ensureSummary e)).1).1 := by
  rw [validate_fst, normalizeAttendees_frame _ (by decide)]

theorem lookup_end_after_start (now : DT) (e : Obj) :
    lookupKey "end" (processTimeField now "start" (ensureSummary e)).1 =
      lookupKey "end" e := by
  rw [processTimeField_frame _ _ _ (by decide), ensureSummary_frame _ (by decide)]

theorem lookup_start_presummary (e : Obj) :
    lookupKey "start" (ensureSummary e) = lookupKey "start" e :=
  ensureSummary_frame _ (by decide)

/-! ## Claim C2 -/

/-- C2: `validate_event_data` is total — it returns a (event, warnings) pair
for every input mapping, and the only raising region (the datetime block,
whose failures `dtAttempt` models as `Except.error`) is caught and converted
into a default substitution plus a warning, never an aborting failure. -/
theorem validate_event_data_total :
    (∀ (now : DT) (e : Obj), ∃ p, validateEventData now e = p) ∧
    (∀ (now : DT) (fld : String) (v : Val) (m : String),
      dtAttempt now fld v = Except.error m →
      dtHandled now fld v = (defaultTimeStr now fld, [errMsg fld m])) := by
  refine ⟨fun now e => ⟨_, rfl⟩, fun now fld v m h => ?_⟩
  unfold dtHandled
  rw [h]

/-- Witness for C2 at a concrete wrongly-typed `dateTime` (`5 : int`). -/
theorem validate_event_data_total_witness :
    dtAttempt ⟨2025, 6, 1, 12, 0, 0⟩ "start" (Val.num 5) =
      Except.error "strptime() argument 1 must be str, not int" ∧
    dtHandled ⟨2025, 6, 1, 12, 0, 0⟩ "start" (Val.num 5) =
      (defaultTimeStr ⟨2025, 6, 1, 12, 0, 0⟩ "start",
       [errMsg "start" "strptime() argument 1 must be str, not int"]) :=
  ⟨rfl, validate_event_data_total.2 ⟨2025, 6, 1, 12, 0, 0⟩ "start" (Val.num 5) _ rfl⟩

/-! ## Claim C9 -/

theorem queryGroqLoop_succ (oracle : Nat → HttpAttempt) (retD a n : Nat) :
    queryGroqLoop oracle retD a (n + 1) =
      (match oracle a with
       | HttpAttempt.exc m =>
         (Val.dict [("error", Val.str ("An exception occurred: " ++ m))], [])
       | HttpAttempt.resp code text js =>
         if code = 200 then
           match js with
           | Except.ok j => (j, [])
           | Except.error m =>
             (Val.dict [("error", Val.str ("An exception occurred: " ++ m))], [])
         else if code = 503 then
           ((queryGroqLoop oracle retD (a + 1) n).1,
             retD :: (queryGroqLoop oracle retD (a + 1) n).2)
         else
           (Val.dict [("error",
               Val.str ("API request failed with status code " ++ toString code)),
             ("details", Val.str text)], [])) := rfl

theorem queryGroqLoop_skip (oracle : Nat → HttpAttempt) (retD : Nat) :
    ∀ (k a n : Nat), k ≤ n →
      (∀ i, i < k → ∃ b j, oracle (a + i) = HttpAttempt.resp 503 b j) →
      queryGroqLoop oracle retD a n =
        ((queryGroqLoop oracle retD (a + k) (n - k)).1,
          List.replicate k retD ++ (queryGroqLoop oracle retD (a + k) (n - k)).2)
  | 0, a, n, _, _ => by simp
  | k + 1, a, n, hk, h => by
    cases n with
    | zero => omega
    | succ n' =>
      obtain ⟨b, j, hb⟩ := h 0 (by omega)
      simp only [Nat.add_zero] at hb
      have step : queryGroqLoop oracle retD a (n' + 1) =
          ((queryGroqLoop oracle retD (a + 1) n').1,
            retD :: (queryGroqLoop oracle retD (a + 1) n').2) := by
        rw [queryGroqLoop_succ, hb]
        norm_num
      have ih := queryGroqLoop_skip oracle retD k (a + 1) n' (by omega)
        (fun i hi => by
          have := h (i + 1) (by omega)
          simpa [Nat.add_assoc, Nat.add_comm 1 i] using this)
      rw [step, ih]
      have e1 : a + 1 + k = a + (k + 1) := by omega
      have e2 : n' - k = n' + 1 - (k + 1) := by omega
      rw [e1, e2, List.replicate_succ]
      simp

/-- C9: `query_groq` retries only on status 503, up to 5 attempts with a 10s
sleep after each 503; any other non-200 status returns the
status-and-body error dict immediately (no further sleeps); an exception
returns the exception-message error dict immediately; five 503s exhaust the
retries and yield the distinct unavailable-error dict. -/
theorem query_groq_retry_policy :
    (∀ oracle : Nat → HttpAttempt,
      (∀ i, i < 5 → ∃ b j, oracle i = HttpAttempt.resp 503 b j) →
      queryGroq oracle =
        (Val.dict [("error",
            Val.str "Max retries reached. Model is still loading or unavailable.")],
         List.replicate 5 10)) ∧
    (∀ (oracle : Nat → HttpAttempt) (k : Nat) (c : Nat) (txt : String)
        (js : Except String Val), k < 5 →
      (∀ i, i < k → ∃ b j, oracle i = HttpAttempt.resp 503 b j) →
      oracle k = HttpAttempt.resp c txt js → c ≠ 200 → c ≠ 503 →
      queryGroq oracle =
        (Val.dict [("error",
            Val.str ("API request failed with status code " ++ toString c)),
          ("details", Val.str txt)],
         List.replicate k 10)) ∧
    (∀ (oracle : Nat → HttpAttempt) (k : Nat) (m : String), k < 5 →
      (∀ i, i < k → ∃ b j, oracle i = HttpAttempt.resp 503 b j) →
      oracle k = HttpAttempt.exc m →
      queryGroq oracle =
        (Val.dict [("error", Val.str ("An exception occurred: " ++ m))],
         List.replicate k 10)) := by
  refine ⟨fun oracle h => ?_, fun oracle k c txt js hk h hbk h200 h503 => ?_,
    fun oracle k m hk h hbk => ?_⟩
  · have := queryGroqLoop_skip oracle 10 5 0 5 (by omega)
      (fun i hi => by simpa using h i hi)
    unfold queryGroq
    rw [this]
    rfl
  · have := queryGroqLoop_skip oracle 10 k 0 5 (by omega)
      (fun i hi => by simpa using h i (by omega))
    unfold queryGroq
    rw [this]
    have h5 : 5 - k = (4 - k) + 1 := by omega
    rw [h5]
    unfold queryGroqLoop
    simp only [Nat.zero_add] at hbk ⊢
    rw [hbk]
    simp [h200, h503]
  · have := queryGroqLoop_skip oracle 10 k 0 5 (by omega)
      (fun i hi => by simpa using h i (by omega))
    unfold queryGroq
    rw [this]
    have h5 : 5 - k = (4 - k) + 1 := by omega
    rw [h5]
    unfold queryGroqLoop
    simp only [Nat.zero_add] at hbk ⊢
    rw [hbk]
    simp

/-- Witness for C9 at concrete oracles: all-503, 400-after-two-503s, and an
exception on the first attempt. -/
theorem query_groq_retry_policy_witness :
    queryGroq (fun _ => HttpAttempt.resp 503 "busy" (Except.error "nojson")) =
      (Val.dict [("error",
          Val.str "Max retries reached. Model is still loading or unavailable.")],
       List.replicate 5 10) ∧
    queryGroq (fun i => if i < 2 then HttpAttempt.resp 503 "busy" (Except.error "e")
        else HttpAttempt.resp 400 "bad request" (Except.error "e")) =
      (Val.dict [("error", Val.str ("API request failed with status code " ++ toString 400)),
        ("details", Val.str "bad request")],
       List.replicate 2 10) ∧
    queryGroq (fun _ => HttpAttempt.exc "boom") =
      (Val.dict [("error", Val.str ("An exception occurred: " ++ "boom"))],
       List.replicate 0 10) :=
  ⟨query_groq_retry_policy.1 _ (fun i _ => ⟨"busy", Except.error "nojson", rfl⟩),
   query_groq_retry_policy.2.1 _ 2 400 "bad request" (Except.error "e") (by omega)
     (fun i hi => ⟨"busy", Except.error "e", by
        have : i < 2 := hi
        simp [this]⟩)
     (by simp) (by omega) (by omega),
   query_groq_retry_policy.2.2 _ 0 "boom" (by omega) (fun i hi => by omega) rfl⟩

/-! ## Claim C10 -/

/-- C10: a `start`/`end` that is present but not a mapping passes through the
Validator completely unchanged with no warning for that field; a mapping
without a `dateTime` key only gets the default `timeZone` injected — no
`dateTime` is synthesized and no warning is appended. -/
theorem validate_nondict_and_missing_dateTime :
    ∀ (now : DT) (e : Obj) (fld : String), fld = "start" ∨ fld = "end" →
      (∀ v, lookupKey fld e = some v → isDict v = false →
        lookupKey fld (validateEventData now e).1 = some v ∧
        ((validateEventData now e).2).filter (isFldWarnB fld) = []) ∧
      (∀ d, lookupKey fld e = some (Val.dict d) → lookupKey "dateTime" d = none →
        lookupKey fld (validateEventData now e).1 = some (Val.dict (injectTZ d)) ∧
        lookupKey "dateTime" (injectTZ d) = none ∧
        ((validateEventData now e).2).filter (isFldWarnB fld) = []) := by
  intro now e fld hfld
  rcases hfld with rfl | rfl
  · constructor
    · intro v hv hd
      have hv0 : lookupKey "start" (ensureSummary e) = some v := by
        rw [lookup_start_presummary]; exact hv
      have hp := @processTimeField_nondict now _ _ _ hv0 hd
      refine ⟨?_, ?_⟩
      · rw [validate_lookup_start, hp]; exact hv0
      · rw [validate_snd, List.filter_append, hp]
        simp only [List.filter_nil, List.nil_append]
        exact filter_other_warn now "start" "end" _
          isFldWarnB_start_cnp_end isFldWarnB_start_err_end
    · intro d hv hdt
      have hv0 : lookupKey "start" (ensureSummary e) = some (Val.dict d) := by
        rw [lookup_start_presummary]; exact hv
      have hp := @processTimeField_dict_noDT now _ _ _ hv0 hdt
      refine ⟨?_, ?_, ?_⟩
      · rw [validate_lookup_start, hp]; exact lookup_setKey_self _ _ _
      · rw [lookup_injectTZ_dateTime]; exact hdt
      · rw [validate_snd, List.filter_append, hp]
        simp only [List.filter_nil, List.nil_append]
        exact filter_other_warn now "start" "end" _
          isFldWarnB_start_cnp_end isFldWarnB_start_err_end
  · constructor
    · intro v hv hd
      have hv1 : lookupKey "end" (processTimeField now "start" (ensureSummary e)).1 = some v := by
        rw [lookup_end_after_start]; exact hv
      have hp := @processTimeField_nondict now _ _ _ hv1 hd
      refine ⟨?_, ?_⟩
      · rw [validate_lookup_end, hp]; exact hv1
      · rw [validate_snd, List.filter_append, hp]
        simp only [List.filter_nil, List.append_nil]
        exact filter_other_warn now "end" "start" _
          isFldWarnB_end_cnp_start isFldWarnB_end_err_start
    · intro d hv hdt
      have hv1 : lookupKey "end" (processTimeField now "start" (ensureSummary e)).1 =
          some (Val.dict d) := by
        rw [lookup_end_after_start]; exact hv
      have hp := @processTimeField_dict_noDT now _ _ _ hv1 hdt
      refine ⟨?_, ?_, ?_⟩
      · rw [validate_lookup_end, hp]; exact lookup_setKey_self _ _ _
      · rw [lookup_injectTZ_dateTime]; exact hdt
      · rw [validate_snd, List.filter_append, hp]
        simp only [List.filter_nil, List.append_nil]
        exact filter_other_warn now "end" "start" _
          isFldWarnB_end_cnp_start isFldWarnB_end_err_start

/-- Witness for C10: a bare-string `start` and a `dateTime`-less `end`. -/
theorem validate_nondict_and_missing_dateTime_witness :
    lookupKey "start" ((validateEventData ⟨2025, 6, 1, 12, 0, 0⟩
        [("start", Val.str "tomorrow"), ("end", Val.dict [])]).1) =
      some (Val.str "tomorrow") ∧
    lookupKey "end" ((validateEventData ⟨2025, 6, 1, 12, 0, 0⟩
        [("start", Val.str "tomorrow"), ("end", Val.dict [])]).1) =
      some (Val.dict [("timeZone", Val.str DEFAULT_TIMEZONE)]) ∧
    ((validateEventData ⟨2025, 6, 1, 12, 0, 0⟩
        [("start", Val.str "tomorrow"), ("end", Val.dict [])]).2) = [] := by
  have h1 := (validate_nondict_and_missing_dateTime ⟨2025, 6, 1, 12, 0, 0⟩
    [("start", Val.str "tomorrow"), ("end", Val.dict [])] "start" (Or.inl rfl)).1
    (Val.str "tomorrow") rfl rfl
  have h2 := (validate_nondict_and_missing_dateTime ⟨2025, 6, 1, 12, 0, 0⟩
    [("start", Val.str "tomorrow"), ("end", Val.dict [])] "end" (Or.inr rfl)).2
    [] rfl rfl
  exact ⟨h1.1, by rw [h2.1]; rfl, rfl⟩

/-! ## Claim C3 -/

/-- C3: a `start` (resp. `end`) that is entirely absent is synthesized as
`{dateTime: now+1h (resp. now+2h) in ISO form with the default offset,
timeZone: default}`, and no warning naming that field is appended. -/
theorem validate_absent_field_synthesis :
    ∀ (now : DT) (e : Obj),
      (lookupKey "start" e = none →
        lookupKey "start" (validateEventData now e).1 =
          some (Val.dict [("dateTime", Val.str (defaultTimeStr now "start")),
                          ("timeZone", Val.str DEFAULT_TIMEZONE)]) ∧
        ((validateEventData now e).2).filter (isFldWarnB "start") = []) ∧
      (lookupKey "end" e = none →
        lookupKey "end" (validateEventData now e).1 =
          some (Val.dict [("dateTime", Val.str (defaultTimeStr now "end")),
                          ("timeZone", Val.str DEFAULT_TIMEZONE)]) ∧
        ((validateEventData now e).2).filter (isFldWarnB "end") = []) := by
  intro now e
  constructor
  · intro hv
    have hv0 : lookupKey "start" (ensureSummary e) = none := by
      rw [lookup_start_presummary]; exact hv
    have hp := @processTimeField_absent now _ _ hv0
    refine ⟨?_, ?_⟩
    · rw [validate_lookup_start, hp]
      exact lookup_setKey_self _ _ _
    · rw [validate_snd, List.filter_append, hp]
      simp only [List.filter_nil, List.nil_append]
      exact filter_other_warn now "start" "end" _
        isFldWarnB_start_cnp_end isFldWarnB_start_err_end
  · intro hv
    have hv1 : lookupKey "end" (processTimeField now "start" (ensureSummary e)).1 = none := by
      rw [lookup_end_after_start]; exact hv
    have hp := @processTimeField_absent now _ _ hv1
    refine ⟨?_, ?_⟩
    · rw [validate_lookup_end, hp]
      exact lookup_setKey_self _ _ _
    · rw [validate_snd, List.filter_append, hp]
      simp only [List.filter_nil, List.append_nil]
      exact filter_other_warn now "end" "start" _
        isFldWarnB_end_cnp_start isFldWarnB_end_err_start

/-- Witness for C3 on the empty event at a concrete clock. -/
theorem validate_absent_field_synthesis_witness :
    lookupKey "start" ((validateEventData ⟨2025, 6, 1, 12, 0, 0⟩ []).1) =
      some (Val.dict [("dateTime", Val.str "2025-06-01T13:00:00+05:30"),
                      ("timeZone", Val.str "Asia/Kolkata")]) ∧
    lookupKey "end" ((validateEventData ⟨2025, 6, 1, 12, 0, 0⟩ []).1) =
      some (Val.dict [("dateTime", Val.str "2025-06-01T14:00:00+05:30"),
                      ("timeZone", Val.str "Asia/Kolkata")]) ∧
    ((validateEventData ⟨2025, 6, 1, 12, 0, 0⟩ []).2) = [] := by
  have h1 := (validate_absent_field_synthesis ⟨2025, 6, 1, 12, 0, 0⟩ []).1 rfl
  have h2 := (validate_absent_field_synthesis ⟨2025, 6, 1, 12, 0, 0⟩ []).2 rfl
  exact ⟨by rw [h1.1]; rfl, by rw [h2.1]; rfl, rfl⟩

/-! ## Claim C1 (corrected) -/

theorem canonicalStr_ne_empty (d : DT) : canonicalStr d ≠ "" := by
  intro h
  have := congrArg String.data h
  simp [canonicalStr, DEFAULT_TIMEZONE_OFFSET, fmtChars, pad4C] at this

theorem lookup2_of_lookup {d : Obj} {k1 k2 : String} {e : Obj}
    (h : lookupKey k1 e = some (Val.dict d)) : lookup2 e k1 k2 = lookupKey k2 d := by
  unfold lookup2; rw [h]

/-- Result-field shape in the truthy-`dateTime` case. -/
theorem processTimeField_truthy_lookup2 {now : DT} {fld : String} {e : Obj} {d : Obj}
    {dv : Val} (hv : lookupKey fld e = some (Val.dict d))
    (hdt : lookupKey "dateTime" d = some dv) (ht : truthy dv = true) :
    lookupKey fld (processTimeField now fld e).1 =
      some (Val.dict (setKey "dateTime" (Val.str (dtHandled now fld dv).1) (injectTZ d))) := by
  rw [processTimeField_dict_truthy hv hdt ht]
  exact lookup_setKey_self _ _ _

/-- C1 counterexample: for the event `{start: {}}` the Validator returns a
`start` with **no** `dateTime` at all (it only injects the timezone), so a
ValidatedEvent can be returned with a missing `start.dateTime`. -/
theorem validate_missing_datetime_counterexample :
    lookup2 ((validateEventData ⟨2025, 6, 1, 12, 0, 0⟩ [("start", Val.dict [])]).1)
      "start" "dateTime" = none := by rfl

/-- C1 (amended): the no-missing-`dateTime` invariant holds exactly when each
of `start`/`end` is either entirely absent or a mapping whose `dateTime` is
truthy; in those cases the returned field carries a non-empty `dateTime`
string (a field that is a non-mapping, lacks `dateTime`, or holds a falsy
`dateTime` passes through without synthesis, per C10). -/
theorem validate_datetime_present_when_usable :
    ∀ (now : DT) (e : Obj) (fld : String), fld = "start" ∨ fld = "end" →
      (lookupKey fld e = none ∨
        ∃ d v, lookupKey fld e = some (Val.dict d) ∧
          lookupKey "dateTime" d = some v ∧ truthy v = true) →
      ∃ s, lookup2 (validateEventData now e).1 fld "dateTime" = some (Val.str s) ∧
        s ≠ "" := by
  intro now e fld hfld hcase
  have key : ∀ (e' : Obj),
      lookupKey fld e' = lookupKey fld e →
      lookupKey fld (validateEventData now e).1 =
        lookupKey fld (processTimeField now fld e').1 →
      ∃ s, lookup2 (validateEventData now e).1 fld "dateTime" = some (Val.str s) ∧
        s ≠ "" := by
    intro e' heq hres
    rcases hcase with hv | ⟨d, v, hv, hdt, ht⟩
    · have hv' : lookupKey fld e' = none := by rw [heq]; exact hv
      have hl : lookupKey fld (validateEventData now e).1 =
          some (Val.dict (synthFields now fld)) := by
        rw [hres, processTimeField_absent hv']
        exact lookup_setKey_self _ _ _
      rw [lookup2_of_lookup hl]
      exact ⟨defaultTimeStr now fld, rfl, canonicalStr_ne_empty _⟩
    · have hv' : lookupKey fld e' = some (Val.dict d) := by rw [heq]; exact hv
      obtain ⟨y, hy⟩ := dtHandled_val now fld v
      have hl : lookupKey fld (validateEventData now e).1 =
          some (Val.dict (setKey "dateTime" (Val.str (dtHandled now fld v).1) (injectTZ d))) := by
        rw [hres]
        exact processTimeField_truthy_lookup2 hv' hdt ht
      rw [lookup2_of_lookup hl, lookup_setKey_self]
      exact ⟨(dtHandled now fld v).1, rfl, by rw [hy]; exact canonicalStr_ne_empty _⟩
  rcases hfld with rfl | rfl
  · exact key (ensureSummary e) (lookup_start_presummary e) (validate_lookup_start now e)
  · exact key (processTimeField now "start" (ensureSummary e)).1
      (lookup_end_after_start now e) (validate_lookup_end now e)

/-- Witness for C1's amended theorem: an absent `start` and a truthy `end`. -/
theorem validate_datetime_present_when_usable_witness :
    (∃ s, lookup2 ((validateEventData ⟨2025, 6, 1, 12, 0, 0⟩
        [("end", Val.dict [("dateTime", Val.str "2031-01-02T08:00:00")])]).1)
      "start" "dateTime" = some (Val.str s) ∧ s ≠ "") ∧
    ∃ s, lookup2 ((validateEventData ⟨2025, 6, 1, 12, 0, 0⟩
        [("end", Val.dict [("dateTime", Val.str "2031-01-02T08:00:00")])]).1)
      "end" "dateTime" = some (Val.str s) ∧ s ≠ "" :=
  ⟨validate_datetime_present_when_usable ⟨2025, 6, 1, 12, 0, 0⟩ _ "start"
      (Or.inl rfl) (Or.inl rfl),
   validate_datetime_present_when_usable ⟨2025, 6, 1, 12, 0, 0⟩ _ "end"
      (Or.inr rfl)
      (Or.inr ⟨_, _, rfl, rfl, rfl⟩)⟩

/-! ## Claim C7 (corrected) -/

/-- Result-field timezone for a mapping input. -/
theorem processTimeField_dict_tz {now : DT} {fld : String} {e : Obj} {d : Obj}
    (hv : lookupKey fld e = some (Val.dict d)) :
    ∃ d', lookupKey fld (processTimeField now fld e).1 = some (Val.dict d') ∧
      lookupKey "timeZone" d' =
        some ((lookupKey "timeZone" d).getD (Val.str DEFAULT_TIMEZONE)) := by
  cases hdt : lookupKey "dateTime" d with
  | none =>
    refine ⟨injectTZ d, ?_, lookup_injectTZ_timeZone d⟩
    rw [processTimeField_dict_noDT hv hdt]
    exact lookup_setKey_self _ _ _
  | some dv =>
    by_cases ht : truthy dv = true
    · refine ⟨setKey "dateTime" (Val.str (dtHandled now fld dv).1) (injectTZ d), ?_, ?_⟩
      · exact processTimeField_truthy_lookup2 hv hdt ht
      · rw [lookup_setKey_other (by decide), lookup_injectTZ_timeZone]
    · refine ⟨injectTZ d, ?_, lookup_injectTZ_timeZone d⟩
      rw [processTimeField_dict_falsy hv hdt (by simpa using ht)]
      exact lookup_setKey_self _ _ _

/-- C7 counterexample: an existing non-default `timeZone` is preserved, so
the returned `timeZone` does **not** equal the configured default. -/
theorem validate_timezone_counterexample :
    lookup2 ((validateEventData ⟨2025, 6, 1, 12, 0, 0⟩
        [("start", Val.dict [("dateTime", Val.str "2031-05-05T10:00:00"),
                             ("timeZone", Val.str "America/Los_Angeles")])]).1)
      "start" "timeZone" = some (Val.str "America/Los_Angeles") ∧
    "America/Los_Angeles" ≠ DEFAULT_TIMEZONE := by
  exact ⟨by rfl, by decide⟩

/-- C7 (amended): every returned `start`/`end` that is absent or a mapping
carries a `timeZone`: an absent field is synthesized with the default, a
mapping lacking `timeZone` gets the default injected, and an existing
`timeZone` value is preserved unchanged (not forced to the default); a
non-mapping field is returned unchanged, with no `timeZone`. -/
theorem validate_timezone_handling :
    ∀ (now : DT) (e : Obj) (fld : String), fld = "start" ∨ fld = "end" →
      (lookupKey fld e = none →
        lookup2 (validateEventData now e).1 fld "timeZone" =
          some (Val.str DEFAULT_TIMEZONE)) ∧
      (∀ d, lookupKey fld e = some (Val.dict d) →
        lookup2 (validateEventData now e).1 fld "timeZone" =
          some ((lookupKey "timeZone" d).getD (Val.str DEFAULT_TIMEZONE))) ∧
      (∀ v, lookupKey fld e = some v → isDict v = false →
        lookupKey fld (validateEventData now e).1 = some v) := by
  intro now e fld hfld
  have key : ∀ (e' : Obj),
      lookupKey fld e' = lookupKey fld e →
      lookupKey fld (validateEventData now e).1 =
        lookupKey fld (processTimeField now fld e').1 →
      (lookupKey fld e = none →
        lookup2 (validateEventData now e).1 fld "timeZone" =
          some (Val.str DEFAULT_TIMEZONE)) ∧
      (∀ d, lookupKey fld e = some (Val.dict d) →
        lookup2 (validateEventData now e).1 fld "timeZone" =
          some ((lookupKey "timeZone" d).getD (Val.str DEFAULT_TIMEZONE))) ∧
      (∀ v, lookupKey fld e = some v → isDict v = false →
        lookupKey fld (validateEventData now e).1 = some v) := by
    intro e' heq hres
    refine ⟨?_, ?_, ?_⟩
    · intro hv
      have hv' : lookupKey fld e' = none := by rw [heq]; exact hv
      have hl : lookupKey fld (validateEventData now e).1 =
          some (Val.dict (synthFields now fld)) := by
        rw [hres, processTimeField_absent hv']
        exact lookup_setKey_self _ _ _
      rw [lookup2_of_lookup hl]
      rfl
    · intro d hv
      have hv' : lookupKey fld e' = some (Val.dict d) := by rw [heq]; exact hv
      obtain ⟨d', hd', htz⟩ := @processTimeField_dict_tz now _ _ _ hv'
      have hl : lookupKey fld (validateEventData now e).1 = some (Val.dict d') := by
        rw [hres]; exact hd'
      rw [lookup2_of_lookup hl]
      exact htz
    · intro v hv hd
      have hv' : lookupKey fld e' = some v := by rw [heq]; exact hv
      rw [hres, processTimeField_nondict hv' hd]
      exact hv'
  rcases hfld with rfl | rfl
  · exact key (ensureSummary e) (lookup_start_presummary e) (validate_lookup_start now e)
  · exact key (processTimeField now "start" (ensureSummary e)).1
      (lookup_end_after_start now e) (validate_lookup_end now e)

/-- Witness for C7's amended theorem: absent field, mapping with and without
`timeZone`, and a non-mapping field. -/
theorem validate_timezone_handling_witness :
    lookup2 ((validateEventData ⟨2025, 6, 1, 12, 0, 0⟩
        [("end", Val.dict [("dateTime", Val.str "x"),
                           ("timeZone", Val.str "UTC")])]).1)
      "start" "timeZone" = some (Val.str DEFAULT_TIMEZONE) ∧
    lookup2 ((validateEventData ⟨2025, 6, 1, 12, 0, 0⟩
        [("end", Val.dict [("dateTime", Val.str "x"),
                           ("timeZone", Val.str "UTC")])]).1)
      "end" "timeZone" = some (Val.str "UTC") ∧
    lookupKey "start" ((validateEventData ⟨2025, 6, 1, 12, 0, 0⟩
        [("start", Val.num 7)]).1) = some (Val.num 7) := by
  refine ⟨?_, ?_, ?_⟩
  · exact (validate_timezone_handling ⟨2025, 6, 1, 12, 0, 0⟩
      [("end", Val.dict [("dateTime", Val.str "x"), ("timeZone", Val.str "UTC")])]
      "start" (Or.inl rfl)).1 rfl
  · have := (validate_timezone_handling ⟨2025, 6, 1, 12, 0, 0⟩
      [("end", Val.dict [("dateTime", Val.str "x"), ("timeZone", Val.str "UTC")])]
      "end" (Or.inr rfl)).2.1
      [("dateTime", Val.str "x"), ("timeZone", Val.str "UTC")] rfl
    rw [this]; rfl
  · exact (validate_timezone_handling ⟨2025, 6, 1, 12, 0, 0⟩ [("start", Val.num 7)]
      "start" (Or.inl rfl)).2.2 (Val.num 7) rfl rfl

/-! ## Claim C8 (corrected) -/

/-- C8 counterexample: on the spec's own example reply, the *brace-scan*
strategy already succeeds (the only braces delimit valid JSON), so the result
is not obtained "via the fenced-block strategy without the brace-scan
strategy succeeding". -/
theorem extract_fallback_counterexample :
    braceScan "Sure! ```json\n\x7b\"summary\":\"Call\"\x7d\n```" =
      some (Val.dict [("summary", Val.str "Call")]) := by rfl

/-- C8 (amended): the three fallback strategies run in the fixed order
brace-scan, fenced-code-block, field-regex, stopping at the first success;
on the example reply the extraction yields `{"summary":"Call"}` — via the
brace-scan strategy, which succeeds there — and when all three strategies
fail the extractor returns no candidate. -/
theorem extract_fallback_chain :
    (∀ t v, braceScan t = some v → extractJsonFromText t = some v) ∧
    (∀ t v, braceScan t = none → fencedStrat t = some v →
      extractJsonFromText t = some v) ∧
    (∀ t, braceScan t = none → fencedStrat t = none →
      extractJsonFromText t = fieldStrat t) ∧
    extractJsonFromText "Sure! ```json\n\x7b\"summary\":\"Call\"\x7d\n```" =
      some (Val.dict [("summary", Val.str "Call")]) ∧
    extractJsonFromText "no json here" = none := by
  refine ⟨fun t v h => ?_, fun t v h1 h2 => ?_, fun t h1 h2 => ?_, by rfl, by rfl⟩
  · unfold extractJsonFromText; rw [h]
  · unfold extractJsonFromText; rw [h1, h2]
  · unfold extractJsonFromText; rw [h1, h2]

/-- Witness for C8's amended theorem: each strategy hypothesis discharged at
a concrete reply text. -/
theorem extract_fallback_chain_witness :
    extractJsonFromText "Sure! ```json\n\x7b\"summary\":\"Call\"\x7d\n```" =
      some (Val.dict [("summary", Val.str "Call")]) ∧
    extractJsonFromText "\x7b oops ```json\n\x7b\"a\":1\x7d\n``` tail \x7d" =
      some (Val.dict [("a", Val.num 1)]) ∧
    extractJsonFromText "plain text" = fieldStrat "plain text" :=
  ⟨extract_fallback_chain.1 "Sure! ```json\n\x7b\"summary\":\"Call\"\x7d\n```"
      (Val.dict [("summary", Val.str "Call")]) (by rfl),
   extract_fallback_chain.2.1 "\x7b oops ```json\n\x7b\"a\":1\x7d\n``` tail \x7d"
      (Val.dict [("a", Val.num 1)]) (by rfl) (by rfl),
   extract_fallback_chain.2.2.1 "plain text" (by rfl) (by rfl)⟩

/-! ## Claim C4 -/

theorem truthy_str_of_ne {s : String} (h : s ≠ "") : truthy (Val.str s) = true := by
  cases s with
  | mk data =>
    cases data with
    | nil => exact absurd rfl h
    | cons c t => rfl

theorem dtHandled_unparseable {now : DT} {fld : String} {s : String}
    (hne : s ≠ "") (hp : parseDatetime s = none) :
    dtHandled now fld (Val.str s) = (defaultTimeStr now fld, [cnpMsg fld (Val.str s)]) := by
  unfold dtHandled dtAttempt parseDatetimeV
  simp [truthy_str_of_ne hne, hp]

/-- C4: a non-empty `dateTime` string rejected by all eleven formats and the
natural-language fallback makes the Validator substitute the synthesized
default (now+1h / now+2h with the default offset) and append exactly one
warning naming that field — the could-not-parse message carrying the string. -/
theorem validate_unparseable_warning :
    ∀ (now : DT) (e : Obj) (fld : String) (d : Obj) (s : String),
      fld = "start" ∨ fld = "end" →
      lookupKey fld e = some (Val.dict d) →
      lookupKey "dateTime" d = some (Val.str s) →
      s ≠ "" →
      parseDatetime s = none →
      lookup2 (validateEventData now e).1 fld "dateTime" =
        some (Val.str (defaultTimeStr now fld)) ∧
      ((validateEventData now e).2).filter (isFldWarnB fld) =
        [cnpMsg fld (Val.str s)] := by
  intro now e fld d s hfld hv hdt hne hp
  have htr : truthy (Val.str s) = true := truthy_str_of_ne hne
  have hdh := @dtHandled_unparseable now fld _ hne hp
  have key : ∀ (e' : Obj),
      lookupKey fld e' = lookupKey fld e →
      lookupKey fld (validateEventData now e).1 =
        lookupKey fld (processTimeField now fld e').1 →
      lookup2 (validateEventData now e).1 fld "dateTime" =
        some (Val.str (defaultTimeStr now fld)) ∧
      (processTimeField now fld e').2 = [cnpMsg fld (Val.str s)] := by
    intro e' heq hres
    have hv' : lookupKey fld e' = some (Val.dict d) := by rw [heq]; exact hv
    have hl : lookupKey fld (validateEventData now e).1 =
        some (Val.dict (setKey "dateTime"
          (Val.str (dtHandled now fld (Val.str s)).1) (injectTZ d))) := by
      rw [hres]
      exact processTimeField_truthy_lookup2 hv' hdt htr
    refine ⟨?_, ?_⟩
    · rw [lookup2_of_lookup hl, lookup_setKey_self, hdh]
    · rw [processTimeField_dict_truthy hv' hdt htr, hdh]
  rcases hfld with rfl | rfl
  · obtain ⟨h1, h2⟩ := key (ensureSummary e) (lookup_start_presummary e)
      (validate_lookup_start now e)
    refine ⟨h1, ?_⟩
    rw [validate_snd, List.filter_append, h2]
    rw [filter_other_warn now "start" "end" _
      isFldWarnB_start_cnp_end isFldWarnB_start_err_end]
    simp [List.filter, isFldWarnB_cnp]
  · obtain ⟨h1, h2⟩ := key (processTimeField now "start" (ensureSummary e)).1
      (lookup_end_after_start now e) (validate_lookup_end now e)
    refine ⟨h1, ?_⟩
    rw [validate_snd, List.filter_append, h2]
    rw [filter_other_warn now "end" "start" _
      isFldWarnB_end_cnp_start isFldWarnB_end_err_start]
    simp [List.filter, isFldWarnB_cnp]

/-- Witness for C4 at `dateTime = "garbage"`. -/
theorem validate_unparseable_warning_witness :
    lookup2 ((validateEventData ⟨2025, 6, 1, 12, 0, 0⟩
        [("start", Val.dict [("dateTime", Val.str "garbage")])]).1)
      "start" "dateTime" =
      some (Val.str (defaultTimeStr ⟨2025, 6, 1, 12, 0, 0⟩ "start")) ∧
    ((validateEventData ⟨2025, 6, 1, 12, 0, 0⟩
        [("start", Val.dict [("dateTime", Val.str "garbage")])]).2).filter
      (isFldWarnB "start") = [cnpMsg "start" (Val.str "garbage")] :=
  validate_unparseable_warning ⟨2025, 6, 1, 12, 0, 0⟩
    [("start", Val.dict [("dateTime", Val.str "garbage")])]
    "start" [("dateTime", Val.str "garbage")] "garbage"
    (Or.inl rfl) rfl rfl (by decide) (by rfl)

/-! ## Claim C5 (corrected) -/

theorem truthy_of_parse_some {s : String} {d : DT} (h : parseDatetime s = some d) :
    truthy (Val.str s) = true := by
  by_cases he : s.data.isEmpty
  · unfold parseDatetime at h
    rw [if_pos he] at h
    exact absurd h (by simp)
  · simp [truthy, he]

theorem dtHandled_year_fix {now : DT} {fld : String} {s : String} {d : DT}
    (hp : parseDatetime s = some d) (hy : d.year < now.year)
    (hy1 : 1 ≤ now.year) (hy2 : now.year ≤ 9999)
    (hday : d.day ≤ daysInMonth now.year d.month) :
    dtHandled now fld (Val.str s) = (canonicalStr { d with year := now.year }, []) := by
  unfold dtHandled dtAttempt parseDatetimeV
  rw [truthy_of_parse_some hp]
  simp only [Bool.true_eq_false, if_false, hp, if_pos hy]
  unfold replaceYear
  rw [if_pos ⟨hy1, hy2⟩, if_pos hday]

/-- C5 counterexample: the parseable `2020-02-29T10:00:00` has year < 2025,
but `replace(year=2025)` raises (Feb 29 does not exist in 2025); the code
substitutes the *default* time and records an error-parsing warning instead
of the month/day/time-preserving rewrite the claim demands. -/
theorem validate_year_correction_counterexample :
    parseDatetime "2020-02-29T10:00:00" = some ⟨2020, 2, 29, 10, 0, 0⟩ ∧
    (2020 : Nat) < 2025 ∧
    lookup2 ((validateEventData ⟨2025, 6, 1, 12, 0, 0⟩
        [("start", Val.dict [("dateTime", Val.str "2020-02-29T10:00:00")])]).1)
      "start" "dateTime" = some (Val.str "2025-06-01T13:00:00+05:30") ∧
    "2025-06-01T13:00:00+05:30" ≠ canonicalStr ⟨2025, 2, 29, 10, 0, 0⟩ ∧
    ((validateEventData ⟨2025, 6, 1, 12, 0, 0⟩
        [("start", Val.dict [("dateTime", Val.str "2020-02-29T10:00:00")])]).2) =
      ["Error parsing start time: day is out of range for month"] := by
  refine ⟨by rfl, by omega, by rfl, by decide, by rfl⟩

/-- C5 (amended): for every parseable `dateTime` whose parsed year is less
than the current year, *provided the parsed month/day exists in the current
year* (not Feb 29 into a non-leap year — there `replace` raises and the
default is substituted with a warning), the Validator rewrites just the year
and re-emits month, day and time-of-day unchanged in canonical form with
the default offset, appending no warning for that field. -/
theorem validate_year_correction :
    ∀ (now : DT) (e : Obj) (fld : String) (d : Obj) (s : String) (pd : DT),
      fld = "start" ∨ fld = "end" →
      lookupKey fld e = some (Val.dict d) →
      lookupKey "dateTime" d = some (Val.str s) →
      parseDatetime s = some pd →
      pd.year < now.year →
      1 ≤ now.year → now.year ≤ 9999 →
      pd.day ≤ daysInMonth now.year pd.month →
      lookup2 (validateEventData now e).1 fld "dateTime" =
        some (Val.str (canonicalStr { pd with year := now.year })) ∧
      ((validateEventData now e).2).filter (isFldWarnB fld) = [] := by
  intro now e fld d s pd hfld hv hdt hp hy hy1 hy2 hday
  have htr : truthy (Val.str s) = true := truthy_of_parse_some hp
  have hdh := @dtHandled_year_fix now fld _ _ hp hy hy1 hy2 hday
  have key : ∀ (e' : Obj),
      lookupKey fld e' = lookupKey fld e →
      lookupKey fld (validateEventData now e).1 =
        lookupKey fld (processTimeField now fld e').1 →
      lookup2 (validateEventData now e).1 fld "dateTime" =
        some (Val.str (canonicalStr { pd with year := now.year })) ∧
      (processTimeField now fld e').2 = [] := by
    intro e' heq hres
    have hv' : lookupKey fld e' = some (Val.dict d) := by rw [heq]; exact hv
    have hl : lookupKey fld (validateEventData now e).1 =
        some (Val.dict (setKey "dateTime"
          (Val.str (dtHandled now fld (Val.str s)).1) (injectTZ d))) := by
      rw [hres]
      exact processTimeField_truthy_lookup2 hv' hdt htr
    refine ⟨?_, ?_⟩
    · rw [lookup2_of_lookup hl, lookup_setKey_self, hdh]
    · rw [processTimeField_dict_truthy hv' hdt htr, hdh]
  rcases hfld with rfl | rfl
  · obtain ⟨h1, h2⟩ := key (ensureSummary e) (lookup_start_presummary e)
      (validate_lookup_start now e)
    refine ⟨h1, ?_⟩
    rw [validate_snd, List.filter_append, h2]
    rw [filter_other_warn now "start" "end" _
      isFldWarnB_start_cnp_end isFldWarnB_start_err_end]
    simp
  · obtain ⟨h1, h2⟩ := key (processTimeField now "start" (ensureSummary e)).1
      (lookup_end_after_start now e) (validate_lookup_end now e)
    refine ⟨h1, ?_⟩
    rw [validate_snd, List.filter_append, h2]
    rw [filter_other_warn now "end" "start" _
      isFldWarnB_end_cnp_start isFldWarnB_end_err_start]
    simp

/-- Witness for C5's amended theorem: the spec's own example
`2020-03-15T09:00:00` at current year 2025. -/
theorem validate_year_correction_witness :
    lookup2 ((validateEventData ⟨2025, 6, 1, 12, 0, 0⟩
        [("start", Val.dict [("dateTime", Val.str "2020-03-15T09:00:00")])]).1)
      "start" "dateTime" =
      some (Val.str (canonicalStr ⟨2025, 3, 15, 9, 0, 0⟩)) ∧
    canonicalStr ⟨2025, 3, 15, 9, 0, 0⟩ = "2025-03-15T09:00:00+05:30" :=
  ⟨validate_year_correction ⟨2025, 6, 1, 12, 0, 0⟩
      [("start", Val.dict [("dateTime", Val.str "2020-03-15T09:00:00")])]
      "start" [("dateTime", Val.str "2020-03-15T09:00:00")]
      "2020-03-15T09:00:00" ⟨2020, 3, 15, 9, 0, 0⟩
      (Or.inl rfl) rfl rfl (by rfl) (by decide) (by decide) (by decide) (by decide)
      |>.1,
   by rfl⟩

/-! ## Round trip: the canonical print parses back through the first format -/

theorem dVal_digitChar {n : Nat} (h : n < 10) : dVal (Nat.digitChar n) = some n := by
  interval_cases n <;> rfl

theorem rdYear4_pad {y : Nat} (hy : y ≤ 9999) (r : List Char) :
    rdYear4 (pad4C y ++ r) = [(y, r)] := by
  have e : pad4C y ++ r =
      Nat.digitChar (y / 1000) :: Nat.digitChar (y / 100 % 10) ::
        Nat.digitChar (y / 10 % 10) :: Nat.digitChar (y % 10) :: r := by
    simp [pad4C]
  rw [e]
  simp only [rdYear4]
  rw [dVal_digitChar (by omega), dVal_digitChar (by omega),
    dVal_digitChar (by omega), dVal_digitChar (by omega)]
  simp only []
  congr 2
  omega

theorem rdTwoDig_pad {tp up : Nat → Bool} {n : Nat} (hn : n ≤ 99) (r : List Char)
    (h1 : tp (n / 10) = true) (h2 : up (n % 10) = true) :
    rdTwoDig tp up (pad2C n ++ r) = [(n, r)] := by
  have e : pad2C n ++ r = Nat.digitChar (n / 10) :: Nat.digitChar (n % 10) :: r := by
    simp [pad2C]
  rw [e]
  simp only [rdTwoDig]
  rw [dVal_digitChar (by omega), dVal_digitChar (by omega)]
  simp only [h1, h2, Bool.and_self, if_true]
  congr 2
  omega

theorem rdTwoDig_pad_nil {tp up : Nat → Bool} {n : Nat} (hn : n ≤ 99) (r : List Char)
    (h1 : tp (n / 10) = false) :
    rdTwoDig tp up (pad2C n ++ r) = [] := by
  have e : pad2C n ++ r = Nat.digitChar (n / 10) :: Nat.digitChar (n % 10) :: r := by
    simp [pad2C]
  rw [e]
  simp only [rdTwoDig]
  rw [dVal_digitChar (by omega), dVal_digitChar (by omega)]
  simp [h1]

theorem rdMonth_pad {m : Nat} (h1 : 1 ≤ m) (h2 : m ≤ 12) (r : List Char) :
    ∃ ts, rdMonth (pad2C m ++ r) = (m, r) :: ts := by
  unfold rdMonth
  by_cases hm : m ≤ 9
  · rw [rdTwoDig_pad_nil (by omega) r (by simp; omega),
      rdTwoDig_pad (by omega) r (by simp; omega) (by simp; omega)]
    exact ⟨_, rfl⟩
  · rw [rdTwoDig_pad (by omega) r (by simp; omega) (by simp; omega)]
    exact ⟨_, rfl⟩

theorem rdDay_pad {da : Nat} (h1 : 1 ≤ da) (h2 : da ≤ 31) (r : List Char) :
    ∃ ts, rdDay (pad2C da ++ r) = (da, r) :: ts := by
  unfold rdDay
  by_cases h30 : 30 ≤ da
  · rw [rdTwoDig_pad (by omega) r (by simp; omega) (by simp; omega)]
    exact ⟨_, rfl⟩
  · by_cases h10 : 10 ≤ da
    · rw [rdTwoDig_pad_nil (by omega) r (by simp; omega),
        rdTwoDig_pad (by omega) r (by simp; omega) (by simp)]
      exact ⟨_, rfl⟩
    · rw [rdTwoDig_pad_nil (by omega) r (by simp; omega),
        rdTwoDig_pad_nil (by omega) r (by simp; omega),
        rdTwoDig_pad (by omega) r (by simp; omega) (by simp; omega)]
      exact ⟨_, rfl⟩

theorem rdHour_pad {h : Nat} (h2 : h ≤ 23) (r : List Char) :
    ∃ ts, rdHour (pad2C h ++ r) = (h, r) :: ts := by
  unfold rdHour
  by_cases h20 : 20 ≤ h
  · rw [rdTwoDig_pad (by omega) r (by simp; omega) (by simp; omega)]
    exact ⟨_, rfl⟩
  · rw [rdTwoDig_pad_nil (by omega) r (by simp; omega),
      rdTwoDig_pad (by omega) r (by simp; omega) (by simp)]
    exact ⟨_, rfl⟩

theorem rdMin_pad {mi : Nat} (h2 : mi ≤ 59) (r : List Char) :
    ∃ ts, rdMin (pad2C mi ++ r) = (mi, r) :: ts := by
  unfold rdMin
  rw [rdTwoDig_pad (by omega) r (by simp; omega) (by simp)]
  exact ⟨_, rfl⟩

theorem rdSec_pad {s : Nat} (h2 : s ≤ 59) (r : List Char) :
    ∃ ts, rdSec (pad2C s ++ r) = (s, r) :: ts := by
  unfold rdSec
  rw [rdTwoDig_pad_nil (by omega) r (by simp; omega),
    rdTwoDig_pad (by omega) r (by simp; omega) (by simp)]
  exact ⟨_, rfl⟩

theorem rdLitL_cons (c : Char) (r : List Char) : rdLitL c (c :: r) = [r] := by
  simp [rdLitL]

/-- The committed `%z` token of the canonical `"+05:30"` suffix. -/
def zIST : ZTok := { sign := 1, hh := 5, mm := 30, hColon := true, sec := none }

theorem rdZ_ist : rdZ ('+' :: '0' :: '5' :: ':' :: '3' :: '0' :: []) = [(zIST, [])] := rfl

theorem daysInMonth_le31 (y m : Nat) : daysInMonth y m ≤ 31 := by
  unfold daysInMonth
  split <;> first | omega | (split <;> omega)

theorem pIsoZ_canonical (d : DT)
    (h2 : 1 ≤ d.month) (h3 : d.month ≤ 12) (h4 : 1 ≤ d.day) (h5 : d.day ≤ 31)
    (h6 : d.hour ≤ 23) (h7 : d.minute ≤ 59) (h8 : d.second ≤ 59)
    (hy : d.year ≤ 9999) :
    ∃ u, pIsoZ (fmtChars d ++ DEFAULT_TIMEZONE_OFFSET.data) =
      ((d.year, d.month, d.day, d.hour, d.minute, d.second, zIST), []) :: u := by
  have einput : fmtChars d ++ DEFAULT_TIMEZONE_OFFSET.data =
      pad4C d.year ++ '-' :: (pad2C d.month ++ '-' :: (pad2C d.day ++
        'T' :: (pad2C d.hour ++ ':' :: (pad2C d.minute ++ ':' :: (pad2C d.second ++
          ('+' :: '0' :: '5' :: ':' :: '3' :: '0' :: [])))))) := by
    simp [fmtChars, DEFAULT_TIMEZONE_OFFSET]
  obtain ⟨t2, hmo⟩ := rdMonth_pad h2 h3 ('-' :: (pad2C d.day ++
    'T' :: (pad2C d.hour ++ ':' :: (pad2C d.minute ++ ':' :: (pad2C d.second ++
      ('+' :: '0' :: '5' :: ':' :: '3' :: '0' :: []))))))
  obtain ⟨t3, hda⟩ := rdDay_pad h4 h5 ('T' :: (pad2C d.hour ++
    ':' :: (pad2C d.minute ++ ':' :: (pad2C d.second ++
      ('+' :: '0' :: '5' :: ':' :: '3' :: '0' :: [])))))
  obtain ⟨t4, hh⟩ := rdHour_pad h6 (':' :: (pad2C d.minute ++
    ':' :: (pad2C d.second ++ ('+' :: '0' :: '5' :: ':' :: '3' :: '0' :: []))))
  obtain ⟨t5, hmi⟩ := rdMin_pad h7 (':' :: (pad2C d.second ++
    ('+' :: '0' :: '5' :: ':' :: '3' :: '0' :: [])))
  obtain ⟨t6, hs⟩ := rdSec_pad h8 ('+' :: '0' :: '5' :: ':' :: '3' :: '0' :: [])
  refine ⟨?_, ?_⟩
  case _ =>
    exact ((t6.flatMap fun p6 => (rdZ p6.2).map fun p7 =>
      ((d.year, d.month, d.day, d.hour, d.minute, p6.1, p7.1), p7.2)) ++
      (t5.flatMap fun p5 => (rdLitL ':' p5.2).flatMap fun r5 =>
        (rdSec r5).flatMap fun p6 => (rdZ p6.2).map fun p7 =>
          ((d.year, d.month, d.day, d.hour, p5.1, p6.1, p7.1), p7.2)) ++
      (t4.flatMap fun p4 => (rdLitL ':' p4.2).flatMap fun r4 =>
        (rdMin r4).flatMap fun p5 => (rdLitL ':' p5.2).flatMap fun r5 =>
          (rdSec r5).flatMap fun p6 => (rdZ p6.2).map fun p7 =>
            ((d.year, d.month, d.day, p4.1, p5.1, p6.1, p7.1), p7.2)) ++
      (t3.flatMap fun p3 => (rdLitL 'T' p3.2).flatMap fun r3 =>
        (rdHour r3).flatMap fun p4 => (rdLitL ':' p4.2).flatMap fun r4 =>
          (rdMin r4).flatMap fun p5 => (rdLitL ':' p5.2).flatMap fun r5 =>
            (rdSec r5).flatMap fun p6 => (rdZ p6.2).map fun p7 =>
              ((d.year, d.month, p3.1, p4.1, p5.1, p6.1, p7.1), p7.2)) ++
      (t2.flatMap fun p2 => (rdLitL '-' p2.2).flatMap fun r2 =>
        (rdDay r2).flatMap fun p3 => (rdLitL 'T' p3.2).flatMap fun r3 =>
          (rdHour r3).flatMap fun p4 => (rdLitL ':' p4.2).flatMap fun r4 =>
            (rdMin r4).flatMap fun p5 => (rdLitL ':' p5.2).flatMap fun r5 =>
              (rdSec r5).flatMap fun p6 => (rdZ p6.2).map fun p7 =>
                ((d.year, p2.1, p3.1, p4.1, p5.1, p6.1, p7.1), p7.2)))
  case _ =>
    unfold pIsoZ
    rw [einput, rdYear4_pad hy]
    simp only [List.flatMap_cons, List.flatMap_nil, List.append_nil,
      rdLitL_cons, hmo, hda, hh, hmi, hs, rdZ_ist, List.map_cons, List.map_nil,
      List.cons_append, List.append_assoc, List.nil_append]

theorem runIsoZ_canonical (d : DT) (h : validDT d) :
    runIsoZ (fmtChars d ++ DEFAULT_TIMEZONE_OFFSET.data) = some d := by
  obtain ⟨hy1, hy2, h2, h3, h4, h5, h6, h7, h8⟩ := h
  obtain ⟨u, hu⟩ := pIsoZ_canonical d h2 h3 h4
    (le_trans h5 (daysInMonth_le31 _ _)) h6 h7 h8 hy2
  unfold runIsoZ
  rw [hu]
  simp only [List.head?_cons]
  have hz : zOffset zIST = some 19800 := rfl
  rw [if_true, hz]
  simp only []
  rw [if_pos (by omega)]
  unfold mkDatetime
  rw [if_pos ⟨hy1, hy2, h2, h3, h4, h5, h6, h7, h8⟩]

theorem parseDatetime_canonical (d : DT) (h : validDT d) :
    parseDatetime (canonicalStr d) = some d := by
  have hdata : (canonicalStr d).data = fmtChars d ++ DEFAULT_TIMEZONE_OFFSET.data := by
    simp [canonicalStr]
  have hne : (canonicalStr d).data.isEmpty = false := by
    rw [hdata]
    simp [fmtChars, pad4C]
  unfold parseDatetime
  rw [hne, hdata]
  simp only [Bool.false_eq_true, if_false]
  have ht : tryFormats (fmtChars d ++ DEFAULT_TIMEZONE_OFFSET.data) = some d := by
    unfold tryFormats formatRunners
    rw [List.findSome?_cons]
    rw [runIsoZ_canonical d h]
  rw [ht]

/-! ## Every parse result is a valid datetime -/

theorem mkDatetime_valid {y mo da h mi s : Nat} {d : DT}
    (hd : mkDatetime y mo da h mi s = some d) : validDT d := by
  unfold mkDatetime at hd
  split at hd
  · cases hd
    exact ‹_›
  · cases hd

theorem runFmt_valid {p : List Char → List ((Nat × Nat × Nat × Nat × Nat × Nat) × List Char)}
    {cs : List Char} {d : DT} (h : runFmt p cs = some d) : validDT d := by
  unfold runFmt at h
  cases hh : (p cs).head? with
  | none => rw [hh] at h; cases h
  | some q =>
    obtain ⟨⟨y, mo, da, hr, mi, s⟩, rest⟩ := q
    rw [hh] at h
    simp only [] at h
    split at h
    · exact mkDatetime_valid h
    · cases h

theorem runIsoZ_valid {cs : List Char} {d : DT} (h : runIsoZ cs = some d) : validDT d := by
  unfold runIsoZ at h
  cases hh : (pIsoZ cs).head? with
  | none => rw [hh] at h; cases h
  | some q =>
    obtain ⟨⟨y, mo, da, hr, mi, s, z⟩, rest⟩ := q
    rw [hh] at h
    simp only [] at h
    split at h
    · cases hz : zOffset z with
      | none => rw [hz] at h; cases h
      | some off =>
        rw [hz] at h
        simp only [] at h
        split at h
        · exact mkDatetime_valid h
        · cases h
    · cases h

theorem runNL_valid {cs : List Char} {d : DT} (h : runNL cs = some d) : validDT d := by
  unfold runNL at h
  cases hh : (pNL cs).head? with
  | none => rw [hh] at h; cases h
  | some q =>
    obtain ⟨⟨y, mo, da, h12, mi, pm⟩, rest⟩ := q
    rw [hh] at h
    simp only [] at h
    split at h
    · exact mkDatetime_valid h
    · cases h

theorem nlFallback_valid {cs : List Char} {d : DT} (h : nlFallback cs = some d) :
    validDT d := by
  unfold nlFallback at h
  cases hs : nlSearch cs with
  | none => rw [hs] at h; cases h
  | some p =>
    obtain ⟨dp, tp⟩ := p
    rw [hs] at h
    exact runNL_valid h

theorem findSome?_valid {fs : List (List Char → Option DT)}
    (hall : ∀ f ∈ fs, ∀ cs d, f cs = some d → validDT d) :
    ∀ cs d, fs.findSome? (fun f => f cs) = some d → validDT d := by
  induction fs with
  | nil => intro cs d h; simp [List.findSome?] at h
  | cons f t ih =>
    intro cs d h
    rw [List.findSome?_cons] at h
    cases hf : f cs with
    | some d' =>
      rw [hf] at h
      cases h
      exact hall f (by simp) cs d hf
    | none =>
      rw [hf] at h
      exact ih (fun g hg => hall g (by simp [hg])) cs d h

theorem tryFormats_valid {cs : List Char} {d : DT} (h : tryFormats cs = some d) :
    validDT d := by
  refine findSome?_valid ?_ cs d h
  intro f hf cs' d'
  unfold formatRunners at hf
  simp only [List.mem_cons, List.not_mem_nil, or_false] at hf
  rcases hf with rfl | rfl | rfl | rfl | rfl | rfl | rfl | rfl | rfl | rfl | rfl
  · exact runIsoZ_valid
  all_goals exact runFmt_valid

theorem parseDatetime_valid {s : String} {d : DT} (h : parseDatetime s = some d) :
    validDT d := by
  unfold parseDatetime at h
  split at h
  · cases h
  · cases ht : tryFormats s.data with
    | some d' =>
      rw [ht] at h
      cases h
      exact tryFormats_valid ht
    | none =>
      rw [ht] at h
      exact nlFallback_valid h

/-! ## `addHours` preserves validity and moves the year at most one up -/

theorem daysInMonth_pos {y m : Nat} (h1 : 1 ≤ m) (h2 : m ≤ 12) :
    1 ≤ daysInMonth y m := by
  interval_cases m <;> simp only [daysInMonth] <;>
    first | omega | (split <;> omega)

theorem nextDay_valid {t : DT} (h : validDT t) (hy : t.year ≤ 9998) :
    validDT (nextDay t) ∧ t.year ≤ (nextDay t).year ∧ (nextDay t).year ≤ t.year + 1 := by
  obtain ⟨hy1, hy2, h2, h3, h4, h5, h6, h7, h8⟩ := h
  unfold nextDay validDT
  split
  · dsimp only
    exact ⟨⟨hy1, hy2, h2, h3, by omega, by omega, h6, h7, h8⟩, by omega, by omega⟩
  · split
    · dsimp only
      refine ⟨⟨hy1, hy2, by omega, by omega, by omega,
        daysInMonth_pos (by omega) (by omega), h6, h7, h8⟩, by omega, by omega⟩
    · dsimp only
      refine ⟨⟨by omega, by omega, by omega, by omega, by omega,
        daysInMonth_pos (by omega) (by omega), h6, h7, h8⟩, by omega, by omega⟩

theorem addHours_good {t : DT} {k : Nat} (h : validDT t) (hk : k ≤ 2)
    (hy : t.year ≤ 9998) :
    validDT (addHours t k) ∧ t.year ≤ (addHours t k).year ∧
      (addHours t k).year ≤ t.year + 1 := by
  have hdiv : (t.hour + k) / 24 = 0 ∨ (t.hour + k) / 24 = 1 := by
    obtain ⟨-, -, -, -, -, -, h6, -, -⟩ := h
    omega
  have hmod : (t.hour + k) % 24 ≤ 23 := by omega
  unfold addHours validDT
  dsimp only
  rcases hdiv with hd | hd <;> rw [hd]
  · simp only [addDays]
    obtain ⟨hy1, hy2, h2, h3, h4, h5, h6, h7, h8⟩ := h
    exact ⟨⟨hy1, hy2, h2, h3, h4, h5, hmod, h7, h8⟩, by omega, by omega⟩
  · simp only [addDays]
    obtain ⟨hnv, hg1, hg2⟩ := nextDay_valid h hy
    obtain ⟨gy1, gy2, g2, g3, g4, g5, g6, g7, g8⟩ := hnv
    exact ⟨⟨gy1, gy2, g2, g3, g4, g5, hmod, g7, g8⟩, by omega, by omega⟩

/-! ## Stability of a validated time field (toward idempotence) -/

theorem offsetFor_le (fld : String) : offsetFor fld ≤ 2 := by
  unfold offsetFor; split <;> omega

theorem defaultTimeStr_good {now : DT} (hvn : validDT now) (h9998 : now.year ≤ 9998)
    (fld : String) :
    ∃ y, defaultTimeStr now fld = canonicalStr y ∧ validDT y ∧
      now.year ≤ y.year ∧ y.year ≤ 9999 := by
  obtain ⟨hv, hg1, hg2⟩ := addHours_good hvn (offsetFor_le fld) h9998
  exact ⟨addHours now (offsetFor fld), rfl, hv, hg1, by omega⟩

theorem parseDatetimeV_valid {v : Val} {d : DT}
    (h : parseDatetimeV v = Except.ok (some d)) : validDT d := by
  unfold parseDatetimeV at h
  split at h
  · exact absurd h (by simp)
  · cases v with
    | str s =>
      simp only [] at h
      injection h with h2
      exact parseDatetime_valid h2
    | num n => exact absurd h (by simp)
    | bool b => exact absurd h (by simp)
    | null => exact absurd h (by simp)
    | list l => exact absurd h (by simp)
    | dict dd => exact absurd h (by simp)

/-- The string a repaired `dateTime` holds is the canonical print of a valid
datetime whose year is at least the current one. -/
theorem dtHandled_good {now : DT} {fld : String} {v : Val}
    (hvn : validDT now) (h1000 : 1000 ≤ now.year) (h9998 : now.year ≤ 9998) :
    ∃ y, (dtHandled now fld v).1 = canonicalStr y ∧ validDT y ∧
      now.year ≤ y.year ∧ y.year ≤ 9999 := by
  have hdef := defaultTimeStr_good hvn h9998 fld
  unfold dtHandled dtAttempt
  cases hp : parseDatetimeV v with
  | error m => simpa using hdef
  | ok pd =>
    cases pd with
    | none => simpa using hdef
    | some d =>
      have hdv : validDT d := parseDatetimeV_valid hp
      simp only []
      by_cases hy : d.year < now.year
      · rw [if_pos hy]
        unfold replaceYear
        rw [if_pos ⟨by omega, by omega⟩]
        by_cases hday : d.day ≤ daysInMonth now.year d.month
        · rw [if_pos hday]
          simp only []
          obtain ⟨-, -, g2, g3, g4, -, g6, g7, g8⟩ := hdv
          refine ⟨{ d with year := now.year }, rfl, ?_, ?_, ?_⟩
          · unfold validDT
            dsimp only
            exact ⟨by omega, by omega, g2, g3, g4, hday, g6, g7, g8⟩
          · dsimp only; omega
          · dsimp only; omega
        · rw [if_neg hday]
          simpa using hdef
      · rw [if_neg hy]
        simp only []
        have g2 : d.year ≤ 9999 := hdv.2.1
        exact ⟨d, rfl, hdv, by omega, by omega⟩

/-- Second-run parse of a canonical string is the identity with no warning. -/
theorem dtHandled_canonical {now : DT} {fld : String} {y : DT}
    (hvy : validDT y) (hge : now.year ≤ y.year) :
    dtHandled now fld (Val.str (canonicalStr y)) = (canonicalStr y, []) := by
  unfold dtHandled dtAttempt parseDatetimeV
  rw [truthy_str_of_ne (canonicalStr_ne_empty y)]
  simp only [Bool.true_eq_false, if_false, parseDatetime_canonical y hvy]
  rw [if_neg (by omega : ¬ y.year < now.year)]

/-- The state a time field is in after validation. -/
def GoodVal (now : DT) (v : Val) : Prop :=
  isDict v = false ∨
  ∃ dct, v = Val.dict dct ∧
    (lookupKey "dateTime" dct = none ∨
     (∃ w, lookupKey "dateTime" dct = some w ∧ truthy w = false) ∨
     ∃ y, lookupKey "dateTime" dct = some (Val.str (canonicalStr y)) ∧
       validDT y ∧ now.year ≤ y.year ∧ y.year ≤ 9999)

/-- The `dateTime` entry a time-field value carries (if any). -/
def dtView : Val → Option Val
  | Val.dict dct => lookupKey "dateTime" dct
  | _ => none

theorem dtView_dict (x : Obj) : dtView (Val.dict x) = lookupKey "dateTime" x := rfl

theorem lookup2_eq_dtView {e : Obj} {fld : String} {v : Val}
    (h : lookupKey fld e = some v) : lookup2 e fld "dateTime" = dtView v := by
  unfold lookup2 dtView
  rw [h]
  cases v <;> rfl

/-- A first `processTimeField` run leaves its field in a `GoodVal` state. -/
theorem processTimeField_good (now : DT) (hvn : validDT now)
    (h1000 : 1000 ≤ now.year) (h9998 : now.year ≤ 9998) (fld : String) (e : Obj) :
    ∃ v, lookupKey fld (processTimeField now fld e).1 = some v ∧ GoodVal now v := by
  cases hv : lookupKey fld e with
  | none =>
    rw [processTimeField_absent hv]
    obtain ⟨y, hy, hvy, hg1, hg2⟩ := defaultTimeStr_good hvn h9998 fld
    refine ⟨_, lookup_setKey_self _ _ _,
      Or.inr ⟨synthFields now fld, rfl, Or.inr (Or.inr ⟨y, ?_, hvy, hg1, hg2⟩)⟩⟩
    show some (Val.str (defaultTimeStr now fld)) = some (Val.str (canonicalStr y))
    rw [hy]
  | some v =>
    cases v with
    | dict dct =>
      cases hdt : lookupKey "dateTime" dct with
      | none =>
        rw [processTimeField_dict_noDT hv hdt]
        exact ⟨_, lookup_setKey_self _ _ _,
          Or.inr ⟨injectTZ dct, rfl,
            Or.inl (by rw [lookup_injectTZ_dateTime]; exact hdt)⟩⟩
      | some dv =>
        by_cases ht : truthy dv = true
        · rw [processTimeField_dict_truthy hv hdt ht]
          obtain ⟨y, hy, hvy, hg1, hg2⟩ := @dtHandled_good now fld dv
            hvn h1000 h9998
          refine ⟨_, lookup_setKey_self _ _ _,
            Or.inr ⟨_, rfl, Or.inr (Or.inr ⟨y, ?_, hvy, hg1, hg2⟩)⟩⟩
          rw [lookup_setKey_self, hy]
        · rw [processTimeField_dict_falsy hv hdt (by simpa using ht)]
          refine ⟨_, lookup_setKey_self _ _ _,
            Or.inr ⟨injectTZ dct, rfl, Or.inr (Or.inl ⟨dv, ?_, by simpa using ht⟩)⟩⟩
          rw [lookup_injectTZ_dateTime]
          exact hdt
    | str s =>
      exact ⟨Val.str s, by rw [processTimeField_nondict hv rfl]; exact hv, Or.inl rfl⟩
    | num n =>
      exact ⟨Val.num n, by rw [processTimeField_nondict hv rfl]; exact hv, Or.inl rfl⟩
    | bool b =>
      exact ⟨Val.bool b, by rw [processTimeField_nondict hv rfl]; exact hv, Or.inl rfl⟩
    | null =>
      exact ⟨Val.null, by rw [processTimeField_nondict hv rfl]; exact hv, Or.inl rfl⟩
    | list l =>
      exact ⟨Val.list l, by rw [processTimeField_nondict hv rfl]; exact hv, Or.inl rfl⟩

/-- A second `processTimeField` run on a `GoodVal` field appends no warning
and preserves the field's `dateTime` entry. -/
theorem processTimeField_stable {now : DT} {fld : String} {e : Obj} {v : Val}
    (hv : lookupKey fld e = some v) (hg : GoodVal now v) :
    (processTimeField now fld e).2 = [] ∧
    ∃ v', lookupKey fld (processTimeField now fld e).1 = some v' ∧
      dtView v' = dtView v := by
  rcases hg with hnd | ⟨dct, rfl, hcase⟩
  · rw [processTimeField_nondict hv hnd]
    exact ⟨rfl, v, hv, rfl⟩
  · rcases hcase with hdt | ⟨w, hdt, hw⟩ | ⟨y, hdt, hvy, hge, hle⟩
    · rw [processTimeField_dict_noDT hv hdt]
      refine ⟨rfl, _, lookup_setKey_self _ _ _, ?_⟩
      rw [dtView_dict, dtView_dict, lookup_injectTZ_dateTime]
    · rw [processTimeField_dict_falsy hv hdt hw]
      refine ⟨rfl, _, lookup_setKey_self _ _ _, ?_⟩
      rw [dtView_dict, dtView_dict, lookup_injectTZ_dateTime]
    · have ht : truthy (Val.str (canonicalStr y)) = true :=
        truthy_str_of_ne (canonicalStr_ne_empty y)
      rw [processTimeField_dict_truthy hv hdt ht,
        dtHandled_canonical hvy hge]
      refine ⟨rfl, _, lookup_setKey_self _ _ _, ?_⟩
      rw [dtView_dict, dtView_dict, lookup_setKey_self, hdt]

/-! ## Claim C6 -/

/-- C6: the Validator is idempotent on its own output — re-validating a
ValidatedEvent (at the same clock reading, with the clock a valid wall-clock
datetime whose year has four digits and headroom for the +2h rollover)
leaves the canonical `start.dateTime` and `end.dateTime` strings unchanged
and produces an empty warnings list. -/
theorem validate_idempotent :
    ∀ (now : DT) (e : Obj), validDT now → 1000 ≤ now.year → now.year ≤ 9998 →
      (validateEventData now (validateEventData now e).1).2 = [] ∧
      lookup2 (validateEventData now (validateEventData now e).1).1 "start" "dateTime" =
        lookup2 (validateEventData now e).1 "start" "dateTime" ∧
      lookup2 (validateEventData now (validateEventData now e).1).1 "end" "dateTime" =
        lookup2 (validateEventData now e).1 "end" "dateTime" := by
  intro now e hvn h1000 h9998
  obtain ⟨vs, hvs, hgs⟩ :=
    processTimeField_good now hvn h1000 h9998 "start" (ensureSummary e)
  have hvsE1 : lookupKey "start" (validateEventData now e).1 = some vs := by
    rw [validate_lookup_start]; exact hvs
  obtain ⟨ve, hve, hge⟩ := processTimeField_good now hvn h1000 h9998 "end"
    (processTimeField now "start" (ensureSummary e)).1
  have hveE1 : lookupKey "end" (validateEventData now e).1 = some ve := by
    rw [validate_lookup_end]; exact hve
  have hvs2 : lookupKey "start" (ensureSummary (validateEventData now e).1) = some vs := by
    rw [lookup_start_presummary]; exact hvsE1
  obtain ⟨hwS, vs', hvs', hdvs⟩ := processTimeField_stable hvs2 hgs
  have hve2 : lookupKey "end"
      (processTimeField now "start" (ensureSummary (validateEventData now e).1)).1 =
      some ve := by
    rw [lookup_end_after_start]; exact hveE1
  obtain ⟨hwE, ve', hve', hdve⟩ := processTimeField_stable hve2 hge
  refine ⟨?_, ?_, ?_⟩
  · rw [validate_snd, hwS, hwE]
    rfl
  · have l2 : lookupKey "start" (validateEventData now (validateEventData now e).1).1 =
        some vs' := by
      rw [validate_lookup_start]; exact hvs'
    rw [lookup2_eq_dtView l2, lookup2_eq_dtView hvsE1, hdvs]
  · have l2 : lookupKey "end" (validateEventData now (validateEventData now e).1).1 =
        some ve' := by
      rw [validate_lookup_end]; exact hve'
    rw [lookup2_eq_dtView l2, lookup2_eq_dtView hveE1, hdve]

/-- Witness for C6 on a mixed concrete event (year-fixed string, bare-string
`end`, attendees) at a concrete clock. -/
theorem validate_idempotent_witness :
    (validateEventData ⟨2025, 6, 1, 12, 0, 0⟩
      (validateEventData ⟨2025, 6, 1, 12, 0, 0⟩
        [("start", Val.dict [("dateTime", Val.str "2020-03-15T09:00:00")]),
         ("end", Val.str "later"),
         ("attendees", Val.list [Val.str "a@x.com"])]).1).2 = [] ∧
    lookup2 (validateEventData ⟨2025, 6, 1, 12, 0, 0⟩
      (validateEventData ⟨2025, 6, 1, 12, 0, 0⟩
        [("start", Val.dict [("dateTime", Val.str "2020-03-15T09:00:00")]),
         ("end", Val.str "later"),
         ("attendees", Val.list [Val.str "a@x.com"])]).1).1 "start" "dateTime" =
      lookup2 (validateEventData ⟨2025, 6, 1, 12, 0, 0⟩
        [("start", Val.dict [("dateTime", Val.str "2020-03-15T09:00:00")]),
         ("end", Val.str "later"),
         ("attendees", Val.list [Val.str "a@x.com"])]).1 "start" "dateTime" ∧
    lookup2 (validateEventData ⟨2025, 6, 1, 12, 0, 0⟩
      (validateEventData ⟨2025, 6, 1, 12, 0, 0⟩
        [("start", Val.dict [("dateTime", Val.str "2020-03-15T09:00:00")]),
         ("end", Val.str "later"),
         ("attendees", Val.list [Val.str "a@x.com"])]).1).1 "end" "dateTime" =
      lookup2 (validateEventData ⟨2025, 6, 1, 12, 0, 0⟩
        [("start", Val.dict [("dateTime", Val.str "2020-03-15T09:00:00")]),
         ("end", Val.str "later"),
         ("attendees", Val.list [Val.str "a@x.com"])]).1 "end" "dateTime" :=
  validate_idempotent ⟨2025, 6, 1, 12, 0, 0⟩
    [("start", Val.dict [("dateTime", Val.str "2020-03-15T09:00:00")]),
     ("end", Val.str "later"),
     ("attendees", Val.list [Val.str "a@x.com"])]
    (by decide) (by decide) (by decide)

end Quickevent
